import Mathlib

set_option maxRecDepth 8000

/-!
Verification development for the Hydro compiler (a small ahead-of-time
compiler for a toy imperative language that emits x86-64 NASM assembly).

The development shallowly embeds the four source files:

* `tokenization.hpp` — the lexer (`Tokenizer::tokenize`, `bin_prec`,
  `TokenType`, `Token`);
* `parser.hpp`       — the AST node types and the recursive-descent /
  precedence-climbing parser;
* `generation.hpp`   — the stack-machine code generator;
* `arena.hpp`        — the bump allocator.

Conventions used throughout:

* `std::optional<T>` becomes `Option T`; a call of `.value()` on an
  optional that may be empty is modelled explicitly, an empty optional
  producing the error `badOptionalAccess` (in C++ the call throws
  `std::bad_optional_access`).
* `std::cerr << msg; exit(EXIT_FAILURE);` becomes `Except.error` carrying
  the message (or a constructor standing for it).
* loops are modelled with an explicit fuel parameter; every claim is
  settled either at a concrete input (where the supplied fuel is ample)
  or by a statement quantified over all fuel values.
* the member index `m_index` of the tokenizer and the parser becomes an
  explicit index argument threaded through the functions.
-/

/-! ## tokenization.hpp -/

/-- The token kinds, `enum class TokenType` (tokenization.hpp lines 51-82).
`let`, `if`, `else`, `true`, `false`, `while`, `for` and `return` are
reserved in Lean or clash with existing names, so they keep the trailing
underscore the C++ source itself uses for its own reserved words. -/
inductive TokenType where
  | exit
  | int_lit
  | semi
  | open_paren
  | close_paren
  | ident
  | let_
  | eq
  | plus
  | star
  | minus
  | fslash
  | open_curly
  | close_curly
  | if_
  | else_
  | else_if
  | true_
  | false_
  | eq_eq
  | and_and
  | or_or
  | while_
  | for_
  | string_lit
  | bool_lit
  | function
  | return_
  | comma
deriving DecidableEq, Repr

/-- `bin_prec` (tokenization.hpp lines 85-96): the precedence of the binary
operators; `none` for every other token. -/
def bin_prec : TokenType → Option Int
  | TokenType.minus => some 0
  | TokenType.plus => some 0
  | TokenType.fslash => some 1
  | TokenType.star => some 1
  | _ => none

/-- `struct Token` (tokenization.hpp lines 98-101). -/
structure Token where
  type : TokenType
  value : Option String := none
deriving DecidableEq, Repr

/-- The ways `Tokenizer::tokenize` terminates the process abnormally:
the three `std::cerr` + `exit(EXIT_FAILURE)` sites, and the exception a
call of `.value()` on an empty `std::optional` throws. -/
inductive TokError where
  | unknownEscape
  | unclosedString
  | syntaxError
  | badOptionalAccess
deriving DecidableEq, Repr

/-- `std::isspace` over the default locale: the six ASCII whitespace
characters. -/
def isCSpace (c : Char) : Bool :=
  c = ' ' || c = '\t' || c = '\n' || c = '\x0b' || c = '\x0c' || c = '\r'

/-- `std::isalpha` over the default locale: ASCII letters. -/
def isCAlpha (c : Char) : Bool :=
  ('A' ≤ c && c ≤ 'Z') || ('a' ≤ c && c ≤ 'z')

/-- `std::isdigit`: ASCII digits. -/
def isCDigit (c : Char) : Bool :=
  '0' ≤ c && c ≤ '9'

/-- `std::isalnum`: ASCII letters and digits. -/
def isCAlnum (c : Char) : Bool :=
  isCAlpha c || isCDigit c

/-- The keyword dispatch on the scanned identifier buffer
(tokenization.hpp lines 220-271), kept branch for branch: the test against
"else if" (line 242) and the second test against "true"/"false"
(lines 262-266) are unreachable in the source but are reproduced here. -/
def classifyWord (buf : String) : Token :=
  if buf = "true" then { type := TokenType.true_ }
  else if buf = "false" then { type := TokenType.false_ }
  else if buf = "exit" then { type := TokenType.exit }
  else if buf = "let" then { type := TokenType.let_ }
  else if buf = "if" then { type := TokenType.if_ }
  else if buf = "else" then { type := TokenType.else_ }
  else if buf = "else if" then { type := TokenType.else_if }
  else if buf = "while" then { type := TokenType.while_ }
  else if buf = "for" then { type := TokenType.for_ }
  else if buf = "function" then { type := TokenType.function }
  else if buf = "return" then { type := TokenType.return_ }
  else if buf = "true" || buf = "false" then
    { type := if buf = "true" then TokenType.true_ else TokenType.false_ }
  else { type := TokenType.ident, value := some buf }

/-- The single-line-comment scan (lines 124-126): consume characters until
end of line or end of input; returns the index of the first unconsumed
character. -/
def lineScan (src : List Char) (fuel i : Nat) : Nat :=
  match fuel with
  | 0 => i
  | f + 1 =>
    match src.get? i with
    | none => i
    | some c => if c = '\n' then i else lineScan src f (i + 1)

/-- The block-comment scan (lines 133-135):
`while (peek().has_value() && !(peek().value() == '*' && peek(1).value() == '/'))`.
When the scan stands on a `*` that is the last character of the input,
`peek(1).value()` is called on an empty optional. Returns the index at
which the loop stops. -/
def blockScan (src : List Char) (fuel i : Nat) : Except TokError Nat :=
  match fuel with
  | 0 => Except.ok i
  | f + 1 =>
    match src.get? i with
    | none => Except.ok i
    | some c =>
      if c = '*' then
        match src.get? (i + 1) with
        | none => Except.error TokError.badOptionalAccess
        | some d => if d = '/' then Except.ok i else blockScan src f (i + 1)
      else blockScan src f (i + 1)

/-- The identifier/keyword scan (lines 215-219): greedily consume
alphanumeric characters into the buffer. -/
def scanWord (src : List Char) (fuel i : Nat) (acc : List Char) : List Char × Nat :=
  match fuel with
  | 0 => (acc, i)
  | f + 1 =>
    match src.get? i with
    | none => (acc, i)
    | some c => if isCAlnum c then scanWord src f (i + 1) (acc ++ [c]) else (acc, i)

/-- The integer-literal scan (lines 275-279). -/
def scanDigits (src : List Char) (fuel i : Nat) (acc : List Char) : List Char × Nat :=
  match fuel with
  | 0 => (acc, i)
  | f + 1 =>
    match src.get? i with
    | none => (acc, i)
    | some c => if isCDigit c then scanDigits src f (i + 1) (acc ++ [c]) else (acc, i)

/-- The string-literal scanning loop (lines 165-195), entered just past the
opening quote with `is_escaped = false`. Returns the decoded payload and
the index at which the loop stops; on seeing an unescaped closing quote
the loop consumes it and breaks (so the returned index is one past that
quote). An unrecognised escape is fatal (lines 176-180). -/
def strLitScan (src : List Char) (fuel i : Nat) (escaped : Bool) (acc : List Char) :
    Except TokError (List Char × Nat) :=
  match fuel with
  | 0 => Except.ok (acc, i)
  | f + 1 =>
    match src.get? i with
    | none => Except.ok (acc, i)
    | some c =>
      if escaped then
        if c = 'n' then strLitScan src f (i + 1) false (acc ++ ['\n'])
        else if c = 't' then strLitScan src f (i + 1) false (acc ++ ['\t'])
        else if c = '"' then strLitScan src f (i + 1) false (acc ++ ['"'])
        else if c = '\\' then strLitScan src f (i + 1) false (acc ++ ['\\'])
        else Except.error TokError.unknownEscape
      else
        if c = '\\' then strLitScan src f (i + 1) true acc
        else if c = '"' then Except.ok (acc, i + 1)
        else strLitScan src f (i + 1) false (acc ++ [c])

/-- Steps of one iteration of the tokenize loop from the `isalpha` test
(line 214) to the trailing `else` (lines 334-337): identifier/keyword,
integer literal, the single-character tokens, whitespace, and the fatal
"Syntax error" default. `c` is the character `peek()` returned. -/
def tokIterWord (src : List Char) (i : Nat) (c : Char) (acc : List Token) :
    Except TokError (Nat × List Token) :=
  if isCAlpha c then
    let r := scanWord src (src.length + 1) (i + 1) [c]
    Except.ok (r.2, acc ++ [classifyWord (String.mk r.1)])
  else if isCDigit c then
    let r := scanDigits src (src.length + 1) (i + 1) [c]
    Except.ok (r.2, acc ++ [{ type := TokenType.int_lit, value := some (String.mk r.1) }])
  else if c = '(' then Except.ok (i + 1, acc ++ [{ type := TokenType.open_paren }])
  else if c = ')' then Except.ok (i + 1, acc ++ [{ type := TokenType.close_paren }])
  else if c = ';' then Except.ok (i + 1, acc ++ [{ type := TokenType.semi }])
  else if c = '=' then Except.ok (i + 1, acc ++ [{ type := TokenType.eq }])
  else if c = '+' then Except.ok (i + 1, acc ++ [{ type := TokenType.plus }])
  else if c = '*' then Except.ok (i + 1, acc ++ [{ type := TokenType.star }])
  else if c = '-' then Except.ok (i + 1, acc ++ [{ type := TokenType.minus }])
  else if c = '/' then Except.ok (i + 1, acc ++ [{ type := TokenType.fslash }])
  else if c = '{' then Except.ok (i + 1, acc ++ [{ type := TokenType.open_curly }])
  else if c = '}' then Except.ok (i + 1, acc ++ [{ type := TokenType.close_curly }])
  else if c = ',' then Except.ok (i + 1, acc ++ [{ type := TokenType.comma }])
  else if isCSpace c then Except.ok (i + 1, acc)
  else Except.error TokError.syntaxError

/-- The `||` check (lines 207-212) and everything after it in one loop
iteration. `peek().value()` at line 207 is read without a `has_value`
guard, so an exhausted input at this point throws. Control reaches this
point either with the position unchanged (the earlier two-character checks
fell through) or directly behind a completed string literal (the string
branch, lines 160-204, does not `continue`). -/
def tokIterBar (src : List Char) (i : Nat) (acc : List Token) :
    Except TokError (Nat × List Token) :=
  match src.get? i with
  | none => Except.error TokError.badOptionalAccess
  | some c =>
    if c = '|' then
      match src.get? (i + 1) with
      | none => Except.error TokError.badOptionalAccess
      | some d =>
        if d = '|' then Except.ok (i + 2, acc ++ [{ type := TokenType.or_or }])
        else tokIterWord src i c acc
    else tokIterWord src i c acc

/-- The string-literal branch (lines 160-204) and everything after it in
one loop iteration. After pushing the `string_lit` token the source does
not `continue`, so control falls through to the `||` check with the
position standing just past the closing quote; the check at lines 197-201
(`!peek().has_value() || peek() != '"'`) runs after the closing quote has
already been consumed, and is the fatal "unclosed string literal" exit. -/
def tokIterStr (src : List Char) (i : Nat) (c : Char) (acc : List Token) :
    Except TokError (Nat × List Token) :=
  if c = '"' then
    match strLitScan src (src.length + 1) (i + 1) false [] with
    | Except.error e => Except.error e
    | Except.ok (payload, j) =>
      match src.get? j with
      | none => Except.error TokError.unclosedString
      | some d =>
        if d = '"' then
          tokIterBar src j (acc ++ [{ type := TokenType.string_lit, value := some (String.mk payload) }])
        else Except.error TokError.unclosedString
  else tokIterBar src i acc

/-- One full iteration of the tokenize loop (lines 117-338), entered with
`peek()` returning `c`. The comment branches end the iteration with
`continue`; the `==` and `&&` checks (lines 144 and 152) read
`peek(1).value()` without a `has_value` guard. -/
def tokIter (src : List Char) (i : Nat) (c : Char) (acc : List Token) :
    Except TokError (Nat × List Token) :=
  if c = '/' && (src.get? (i + 1)).any (· = '/') then
    Except.ok (lineScan src (src.length + 1) (i + 2), acc)
  else if c = '/' && (src.get? (i + 1)).any (· = '*') then
    match blockScan src (src.length + 1) (i + 2) with
    | Except.error e => Except.error e
    | Except.ok j =>
      Except.ok (if (src.get? j).isSome then j + 2 else j, acc)
  else if c = '=' then
    match src.get? (i + 1) with
    | none => Except.error TokError.badOptionalAccess
    | some d =>
      if d = '=' then Except.ok (i + 2, acc ++ [{ type := TokenType.eq_eq }])
      else tokIterStr src i c acc
  else if c = '&' then
    match src.get? (i + 1) with
    | none => Except.error TokError.badOptionalAccess
    | some d =>
      if d = '&' then Except.ok (i + 2, acc ++ [{ type := TokenType.and_and }])
      else tokIterStr src i c acc
  else tokIterStr src i c acc

/-- The tokenize driver loop: `while (peek().has_value())`. -/
def tokGo (src : List Char) (fuel i : Nat) (acc : List Token) :
    Except TokError (List Token) :=
  match fuel with
  | 0 => Except.ok acc
  | f + 1 =>
    match src.get? i with
    | none => Except.ok acc
    | some c =>
      match tokIter src i c acc with
      | Except.error e => Except.error e
      | Except.ok (j, acc2) => tokGo src f j acc2

/-- `Tokenizer::tokenize` (tokenization.hpp lines 110-341). Every loop
iteration advances the position by at least one character, so
`length + 1` fuel is ample. -/
def tokenize (s : String) : Except TokError (List Token) :=
  tokGo s.data (s.data.length + 1) 0 []

/-! ## parser.hpp: the AST

The node structs of parser.hpp (lines 13-183) form one mutually recursive
family. The C++ `std::variant` declarations are inconsistent with the
construction sites and with the visitors of generation.hpp (for example,
`NodeTerm`'s variant at line 125 omits `NodeBoolLit` and `NodeTermParen`
although `parse_term` builds both and the generator's `TermVisitor`
handles both, and `NodeStmt`'s variant at line 172 omits the while/for/
else/literal statement forms its parser branches return and its
`StmtVisitor` handles); the embedding follows the construction sites and
the visitors, which agree with each other. -/

mutual
inductive NodeTerm where
  | intLitT (int_lit : Token)
  | identT (ident : Token)
  | parenT (expr : NodeExpr)
  | boolLitT (value : Bool)
  | stringLitT (value : String)
  | funcDefT (fd : NodeFuncDef)
deriving Repr

inductive NodeBinExpr where
  | addE (lhs rhs : NodeExpr)
  | subE (lhs rhs : NodeExpr)
  | multiE (lhs rhs : NodeExpr)
  | divE (lhs rhs : NodeExpr)
  | eqE (lhs rhs : NodeExpr)
  | andE (lhs rhs : NodeExpr)
  | orE (lhs rhs : NodeExpr)
deriving Repr

inductive NodeExpr where
  | term (t : NodeTerm)
  | binE (b : NodeBinExpr)
  | funcCallE (f : NodeFuncCall)
deriving Repr

inductive NodeFuncCall where
  | mk (ident : Token) (args : List NodeExpr)
deriving Repr

inductive NodeFuncDef where
  | mk (ident : Token) (params : List Token) (body : NodeScope)
deriving Repr

inductive NodeScope where
  | mk (stmts : List NodeStmt)
deriving Repr

inductive NodeStmtElseIf where
  | mk (expr : NodeExpr) (scope : NodeScope) (next : Option NodeStmtElseIf)
deriving Repr

inductive NodeStmt where
  | exitS (expr : NodeExpr)
  | letS (ident : Token) (expr : NodeExpr)
  | scopeS (scope : NodeScope)
  | ifS (expr : NodeExpr) (scope : NodeScope)
  | elseS (scope : NodeScope)
  | elseIfS (chain : NodeStmtElseIf)
  | whileS (expr : NodeExpr) (scope : NodeScope)
  | forS (init cond iter : NodeExpr) (scope : NodeScope)
  | stringLitS (value : String)
  | boolLitS (value : Bool)
  | funcDefS (fd : NodeFuncDef)
deriving Repr
end

/-- `struct NodeProg` (parser.hpp lines 176-178). -/
structure NodeProg where
  stmts : List NodeStmt
deriving Repr

/-! ## arena.hpp -/

/-- `class ArenaAllocator` (arena.hpp lines 38-65). `m_buffer` is the
base address returned by `malloc(bytes)`; the embedding keeps `m_offset`
as the byte distance of the bump pointer from that base. -/
structure ArenaAllocator where
  m_size : Nat
  m_offset : Nat
deriving DecidableEq, Repr

/-- `ArenaAllocator::alloc<T>` (arena.hpp lines 46-51), with `sizeof(T)`
passed explicitly: save the current offset, advance the bump pointer by
the object size, and return the saved offset. The source performs no
comparison against `m_size` whatsoever. -/
def ArenaAllocator.alloc (bytes : Nat) (a : ArenaAllocator) : Nat × ArenaAllocator :=
  (a.m_offset, { a with m_offset := a.m_offset + bytes })

/-! ## parser.hpp: the parser

All parse functions take the token list and the current index (the member
`m_index`) explicitly and return the new index along with their result;
`std::optional` results stay `Option`. A `.error` models
`std::cerr << msg; exit(EXIT_FAILURE)` (constructor `fatal` with the
message) or a thrown `std::bad_optional_access`. The `fuel` constructor
only marks exhaustion of the embedding's explicit recursion fuel. -/

inductive PErr where
  | fatal (msg : String)
  | badOptionalAccess
  | fuel
deriving DecidableEq, Repr

/-- The two-argument `try_consume` (parser.hpp lines 765-774): consume a
token of the given type, or print the message and exit. -/
def tryConsumeMsg (ty : TokenType) (msg : String) (toks : List Token) (i : Nat) :
    Except PErr (Token × Nat) :=
  match toks.get? i with
  | some t => if t.type = ty then Except.ok (t, i + 1) else Except.error (PErr.fatal msg)
  | none => Except.error (PErr.fatal msg)

/-- The one-argument `try_consume` (parser.hpp lines 776-784): consume a
token of the given type if it is next, else return an empty optional. -/
def tryConsume (ty : TokenType) (toks : List Token) (i : Nat) : Option (Token × Nat) :=
  match toks.get? i with
  | some t => if t.type = ty then some (t, i + 1) else none
  | none => none

/-- Modelled from the spec: `expect(type, msg)` is called by
`parse_func_def`, `parse_param_list` and `parse_func_call` (parser.hpp
lines 193-251) but is defined nowhere in the repository. The spec
prescribes the parser's failure behavior ("Fails fatally on any syntactic
violation with a concise English message", section 4.4; a missing
expected token is a fatal SyntacticError, section 7), so `expect`
consumes one token of the expected type or fails fatally with the given
message — the behavior of the two-argument `try_consume`. -/
def expect (ty : TokenType) (msg : String) (toks : List Token) (i : Nat) :
    Except PErr (Token × Nat) :=
  match toks.get? i with
  | some t => if t.type = ty then Except.ok (t, i + 1) else Except.error (PErr.fatal msg)
  | none => Except.error (PErr.fatal msg)

/-- The operator dispatch of `parse_expr`'s loop (parser.hpp lines
371-421): build the `NodeBinExpr` alternative matching the consumed
operator token; the trailing `else` is `assert(false)` (line 420),
reported as `none` here and made fatal by the caller. -/
def foldBinOp (opType : TokenType) (lhs rhs : NodeExpr) : Option NodeExpr :=
  if opType = TokenType.plus then some (NodeExpr.binE (NodeBinExpr.addE lhs rhs))
  else if opType = TokenType.eq_eq then some (NodeExpr.binE (NodeBinExpr.eqE lhs rhs))
  else if opType = TokenType.and_and then some (NodeExpr.binE (NodeBinExpr.andE lhs rhs))
  else if opType = TokenType.or_or then some (NodeExpr.binE (NodeBinExpr.orE lhs rhs))
  else if opType = TokenType.star then some (NodeExpr.binE (NodeBinExpr.multiE lhs rhs))
  else if opType = TokenType.minus then some (NodeExpr.binE (NodeBinExpr.subE lhs rhs))
  else if opType = TokenType.fslash then some (NodeExpr.binE (NodeBinExpr.divE lhs rhs))
  else none

/-- The function-call lookahead of `parse_expr` (parser.hpp lines
323-326): the next two tokens are an identifier and `(`. -/
def funcCallAhead (toks : List Token) (i : Nat) : Bool :=
  (toks.get? i).any (fun t => t.type = TokenType.ident) &&
    (toks.get? (i + 1)).any (fun t => t.type = TokenType.open_paren)

/-- Stand-in for the indeterminate value of `stmt_exit->expr` when the
exit branch of `parse_stmt` continues past its missing `exit` call
(parser.hpp lines 518-521, where `(EXIT_FAILURE);` is an expression
statement with no effect): the field stays uninitialized in the source.
The path is proved unreachable, so the placeholder never matters. -/
def uninitExpr : NodeExpr := NodeExpr.term (NodeTerm.intLitT { type := TokenType.int_lit })

/-- The tail of the exit branch of `parse_stmt` (parser.hpp lines
522-526), shared by the normal path and by the diagnose-and-continue path
of lines 518-521. -/
def parseStmtExitTail (ex : NodeExpr) (toks : List Token) (j : Nat) :
    Except PErr (Option NodeStmt × Nat) :=
  match tryConsumeMsg TokenType.close_paren "Expected `)`" toks j with
  | Except.error e => Except.error e
  | Except.ok (_, k) =>
    match tryConsumeMsg TokenType.semi "Expected `;`" toks k with
    | Except.error e => Except.error e
    | Except.ok (_, m) => Except.ok (some (NodeStmt.exitS ex), m)

mutual

/-- `Parser::parse_func_def` (parser.hpp lines 192-205). The optional it
returns is never empty: `expect` fails fatally, and an absent body makes
`body.value()` (line 202) throw. -/
def parseFuncDef (fuel : Nat) (toks : List Token) (i : Nat) :
    Except PErr (Option NodeFuncDef × Nat) :=
  match fuel with
  | 0 => Except.error PErr.fuel
  | f + 1 =>
    match expect TokenType.function "Expected 'function' keyword" toks i with
    | Except.error e => Except.error e
    | Except.ok (_, i1) =>
      match expect TokenType.ident "Expected function name identifier" toks i1 with
      | Except.error e => Except.error e
      | Except.ok (identTok, i2) =>
        match parseParamList f toks i2 with
        | Except.error e => Except.error e
        | Except.ok (params, i3) =>
          match parseScope f toks i3 with
          | Except.error e => Except.error e
          | Except.ok (none, _) => Except.error PErr.badOptionalAccess
          | Except.ok (some body, i4) =>
            Except.ok (some (NodeFuncDef.mk identTok params body), i4)
  termination_by structural fuel

/-- `Parser::parse_param_list` (parser.hpp lines 216-231). -/
def parseParamList (fuel : Nat) (toks : List Token) (i : Nat) :
    Except PErr (List Token × Nat) :=
  match fuel with
  | 0 => Except.error PErr.fuel
  | f + 1 =>
    match expect TokenType.open_paren "Expected '(' for parameter list" toks i with
    | Except.error e => Except.error e
    | Except.ok (_, i1) =>
      match parseParamLoop f toks i1 [] with
      | Except.error e => Except.error e
      | Except.ok (params, j) =>
        match expect TokenType.close_paren "Expected ')' after parameters" toks j with
        | Except.error e => Except.error e
        | Except.ok (_, k) => Except.ok (params, k)

/-- The parameter loop of `parse_param_list` (parser.hpp lines 220-227). -/
def parseParamLoop (fuel : Nat) (toks : List Token) (i : Nat) (acc : List Token) :
    Except PErr (List Token × Nat) :=
  match fuel with
  | 0 => Except.error PErr.fuel
  | f + 1 =>
    match toks.get? i with
    | none => Except.ok (acc, i)
    | some t =>
      if t.type = TokenType.close_paren then Except.ok (acc, i)
      else
        match expect TokenType.ident "Expected parameter identifier" toks i with
        | Except.error e => Except.error e
        | Except.ok (p, j) =>
          let j2 := if (toks.get? j).any (fun t2 => t2.type = TokenType.comma) then j + 1 else j
          parseParamLoop f toks j2 (acc ++ [p])
  termination_by structural fuel

/-- `Parser::parse_func_call` (parser.hpp lines 233-258). -/
def parseFuncCall (fuel : Nat) (toks : List Token) (i : Nat) :
    Except PErr (Option NodeFuncCall × Nat) :=
  match fuel with
  | 0 => Except.error PErr.fuel
  | f + 1 =>
    match expect TokenType.ident "Expected function name identifier" toks i with
    | Except.error e => Except.error e
    | Except.ok (identTok, i1) =>
      match expect TokenType.open_paren "Expected '(' for function call" toks i1 with
      | Except.error e => Except.error e
      | Except.ok (_, i2) =>
        match parseFuncCallArgs f toks i2 [] with
        | Except.error e => Except.error e
        | Except.ok (none, j) => Except.ok (none, j)
        | Except.ok (some args, j) =>
          match expect TokenType.close_paren "Expected ')' after function call arguments" toks j with
          | Except.error e => Except.error e
          | Except.ok (_, k) => Except.ok (some (NodeFuncCall.mk identTok args), k)
  termination_by structural fuel

/-- The argument loop of `parse_func_call` (parser.hpp lines 239-249):
an argument that fails to parse makes the whole call return an empty
optional (line 242). -/
def parseFuncCallArgs (fuel : Nat) (toks : List Token) (i : Nat) (acc : List NodeExpr) :
    Except PErr (Option (List NodeExpr) × Nat) :=
  match fuel with
  | 0 => Except.error PErr.fuel
  | f + 1 =>
    match toks.get? i with
    | none => Except.ok (some acc, i)
    | some t =>
      if t.type = TokenType.close_paren then Except.ok (some acc, i)
      else
        match parseExpr f 0 toks i with
        | Except.error e => Except.error e
        | Except.ok (none, j) => Except.ok (none, j)
        | Except.ok (some a, j) =>
          let j2 := if (toks.get? j).any (fun t2 => t2.type = TokenType.comma) then j + 1 else j
          parseFuncCallArgs f toks j2 (acc ++ [a])
  termination_by structural fuel

/-- `Parser::parse_term` (parser.hpp lines 261-311). The final
`else { return {}; }` (lines 308-310) is dead: the preceding branch calls
`parse_func_def`, which never returns an empty optional. -/
def parseTerm (fuel : Nat) (toks : List Token) (i : Nat) :
    Except PErr (Option NodeTerm × Nat) :=
  match fuel with
  | 0 => Except.error PErr.fuel
  | f + 1 =>
    match tryConsume TokenType.true_ toks i with
    | some (_, j) => Except.ok (some (NodeTerm.boolLitT true), j)
    | none =>
    match tryConsume TokenType.false_ toks i with
    | some (_, j) => Except.ok (some (NodeTerm.boolLitT false), j)
    | none =>
    match tryConsume TokenType.int_lit toks i with
    | some (t, j) => Except.ok (some (NodeTerm.intLitT t), j)
    | none =>
    match tryConsume TokenType.ident toks i with
    | some (t, j) => Except.ok (some (NodeTerm.identT t), j)
    | none =>
    match tryConsume TokenType.open_paren toks i with
    | some (_, j) =>
      (match parseExpr f 0 toks j with
      | Except.error e => Except.error e
      | Except.ok (none, _) => Except.error (PErr.fatal "Expected expression")
      | Except.ok (some e, k) =>
        match tryConsumeMsg TokenType.close_paren "Expected `)`" toks k with
        | Except.error er => Except.error er
        | Except.ok (_, k2) => Except.ok (some (NodeTerm.parenT e), k2))
    | none =>
      match parseFuncDef f toks i with
      | Except.error e => Except.error e
      | Except.ok (none, j) => Except.ok (none, j)
      | Except.ok (some fd, j) => Except.ok (some (NodeTerm.funcDefT fd), j)
  termination_by structural fuel

/-- `Parser::parse_expr` (parser.hpp lines 321-429): the function-call
lookahead, then a term, then the precedence-climbing loop. -/
def parseExpr (fuel : Nat) (minPrec : Int) (toks : List Token) (i : Nat) :
    Except PErr (Option NodeExpr × Nat) :=
  match fuel with
  | 0 => Except.error PErr.fuel
  | f + 1 =>
    if funcCallAhead toks i then
      match parseFuncCall f toks i with
      | Except.error e => Except.error e
      | Except.ok (none, j) => Except.ok (none, j)
      | Except.ok (some fc, j) => Except.ok (some (NodeExpr.funcCallE fc), j)
    else
      match parseTerm f toks i with
      | Except.error e => Except.error e
      | Except.ok (none, j) => Except.ok (none, j)
      | Except.ok (some t, j) => parseExprLoop f minPrec (NodeExpr.term t) toks j
  termination_by structural fuel

/-- The precedence-climbing loop of `parse_expr` (parser.hpp lines
337-425): while the next token has a defined binary precedence not below
`min_prec`, consume it, parse the right-hand side at `prec + 1`, and fold
`lhs op rhs`; otherwise return the accumulated left-hand side. A
right-hand side that fails to parse is fatal (lines 355-358); an operator
with a defined precedence but no dispatch arm would hit `assert(false)`
(line 420). -/
def parseExprLoop (fuel : Nat) (minPrec : Int) (lhs : NodeExpr) (toks : List Token) (i : Nat) :
    Except PErr (Option NodeExpr × Nat) :=
  match fuel with
  | 0 => Except.error PErr.fuel
  | f + 1 =>
    match toks.get? i with
    | none => Except.ok (some lhs, i)
    | some tok =>
      match bin_prec tok.type with
      | none => Except.ok (some lhs, i)
      | some p =>
        if p < minPrec then Except.ok (some lhs, i)
        else
          match parseExpr f (p + 1) toks (i + 1) with
          | Except.error e => Except.error e
          | Except.ok (none, _) => Except.error (PErr.fatal "Unable to parse expression")
          | Except.ok (some rhs, j) =>
            match foldBinOp tok.type lhs rhs with
            | some newLhs => parseExprLoop f minPrec newLhs toks j
            | none => Except.error (PErr.fatal "assertion failed")
  termination_by structural fuel

/-- `Parser::parse_scope` (parser.hpp lines 431-444). -/
def parseScope (fuel : Nat) (toks : List Token) (i : Nat) :
    Except PErr (Option NodeScope × Nat) :=
  match fuel with
  | 0 => Except.error PErr.fuel
  | f + 1 =>
    match tryConsume TokenType.open_curly toks i with
    | none => Except.ok (none, i)
    | some (_, i1) =>
      match parseScopeStmts f toks i1 [] with
      | Except.error e => Except.error e
      | Except.ok (stmts, j) =>
        match tryConsumeMsg TokenType.close_curly "Expected `\x7d`" toks j with
        | Except.error e => Except.error e
        | Except.ok (_, k) => Except.ok (some (NodeScope.mk stmts), k)
  termination_by structural fuel

/-- The statement loop of `parse_scope` (parser.hpp lines 438-440). -/
def parseScopeStmts (fuel : Nat) (toks : List Token) (i : Nat) (acc : List NodeStmt) :
    Except PErr (List NodeStmt × Nat) :=
  match fuel with
  | 0 => Except.error PErr.fuel
  | f + 1 =>
    match parseStmt f toks i with
    | Except.error e => Except.error e
    | Except.ok (none, j) => Except.ok (acc, j)
    | Except.ok (some s, j) => parseScopeStmts f toks j (acc ++ [s])
  termination_by structural fuel

/-- `Parser::parse_else_if_chain` (parser.hpp lines 446-469). -/
def parseElseIfChain (fuel : Nat) (toks : List Token) (i : Nat) :
    Except PErr (Option NodeStmtElseIf × Nat) :=
  match fuel with
  | 0 => Except.error PErr.fuel
  | f + 1 =>
    match parseExpr f 0 toks i with
    | Except.error e => Except.error e
    | Except.ok (none, _) => Except.error (PErr.fatal "Expected an expression after 'else if'")
    | Except.ok (some e, j) =>
      match parseScope f toks j with
      | Except.error e2 => Except.error e2
      | Except.ok (none, _) => Except.error (PErr.fatal "Expected a scope after 'else if' condition")
      | Except.ok (some sc, k) =>
        match toks.get? k with
        | some t =>
          if t.type = TokenType.else_if then
            match parseElseIfChain f toks k with
            | Except.error e3 => Except.error e3
            | Except.ok (none, _) => Except.error PErr.badOptionalAccess
            | Except.ok (some nxt, m) =>
              Except.ok (some (NodeStmtElseIf.mk e sc (some nxt)), m)
          else Except.ok (some (NodeStmtElseIf.mk e sc none), k)
        | none => Except.ok (some (NodeStmtElseIf.mk e sc none), k)
  termination_by structural fuel

/-- `Parser::parse_stmt` (parser.hpp lines 510-699). The entry check at
line 511 reads `peek().value().type` without a `has_value` guard (a throw
when the tokens are exhausted). In the exit branch, a failed expression
parse prints "Invalid expression" but the following `(EXIT_FAILURE);`
(line 520) is an expression statement that calls nothing, so the branch
continues with the statement's expression uninitialized. The source ends
with a branch keyed on `TokenType::print` (lines 678-695), but the
`TokenType` enumeration declares no such member, so no token can select
it; it is omitted. -/
def parseStmt (fuel : Nat) (toks : List Token) (i : Nat) :
    Except PErr (Option NodeStmt × Nat) :=
  match fuel with
  | 0 => Except.error PErr.fuel
  | f + 1 =>
    match toks.get? i with
    | none => Except.error PErr.badOptionalAccess
    | some t0 =>
      if t0.type = TokenType.exit &&
          (toks.get? (i + 1)).any (fun t => t.type = TokenType.open_paren) then
        match parseExpr f 0 toks (i + 2) with
        | Except.error e => Except.error e
        | Except.ok (some ex, j) => parseStmtExitTail ex toks j
        | Except.ok (none, j) => parseStmtExitTail uninitExpr toks j
      else if t0.type = TokenType.let_ &&
          (toks.get? (i + 1)).any (fun t => t.type = TokenType.ident) &&
          (toks.get? (i + 2)).any (fun t => t.type = TokenType.eq) then
        match toks.get? (i + 1) with
        | none => Except.error PErr.badOptionalAccess
        | some identTok =>
          match parseExpr f 0 toks (i + 3) with
          | Except.error e => Except.error e
          | Except.ok (none, _) => Except.error (PErr.fatal "Invalid expression")
          | Except.ok (some e, j) =>
            match tryConsumeMsg TokenType.semi "Expected `;`" toks j with
            | Except.error er => Except.error er
            | Except.ok (_, k) => Except.ok (some (NodeStmt.letS identTok e), k)
      else if t0.type = TokenType.open_curly then
        match parseScope f toks i with
        | Except.error e => Except.error e
        | Except.ok (none, _) => Except.error (PErr.fatal "Invalid scope")
        | Except.ok (some sc, j) => Except.ok (some (NodeStmt.scopeS sc), j)
      else if t0.type = TokenType.if_ then
        match tryConsumeMsg TokenType.open_paren "Expected `(`" toks (i + 1) with
        | Except.error e => Except.error e
        | Except.ok (_, i2) =>
          match parseExpr f 0 toks i2 with
          | Except.error e => Except.error e
          | Except.ok (none, _) => Except.error (PErr.fatal "Invalid expression")
          | Except.ok (some e, j) =>
            match tryConsumeMsg TokenType.close_paren "Expected `)`" toks j with
            | Except.error er => Except.error er
            | Except.ok (_, j2) =>
              match parseScope f toks j2 with
              | Except.error e2 => Except.error e2
              | Except.ok (none, _) => Except.error (PErr.fatal "Invalid scope \x7b\x7d")
              | Except.ok (some sc, k) => Except.ok (some (NodeStmt.ifS e sc), k)
      else if t0.type = TokenType.else_ then
        match parseScope f toks (i + 1) with
        | Except.error e => Except.error e
        | Except.ok (none, _) => Except.error (PErr.fatal "Expected a scope after 'else'")
        | Except.ok (some sc, j) => Except.ok (some (NodeStmt.elseS sc), j)
      else if t0.type = TokenType.else_if then
        match parseElseIfChain f toks (i + 1) with
        | Except.error e => Except.error e
        | Except.ok (none, _) => Except.error (PErr.fatal "Invalid else if chain")
        | Except.ok (some ch, j) => Except.ok (some (NodeStmt.elseIfS ch), j)
      else if t0.type = TokenType.while_ then
        match parseExpr f 0 toks (i + 1) with
        | Except.error e => Except.error e
        | Except.ok (none, _) => Except.error (PErr.fatal "Expected an expression after 'while'")
        | Except.ok (some e, j) =>
          match parseScope f toks j with
          | Except.error e2 => Except.error e2
          | Except.ok (none, _) => Except.error (PErr.fatal "Expected a scope after 'while' condition")
          | Except.ok (some sc, k) => Except.ok (some (NodeStmt.whileS e sc), k)
      else if t0.type = TokenType.for_ then
        match tryConsumeMsg TokenType.open_paren "Expected `(` after 'for'" toks (i + 1) with
        | Except.error e => Except.error e
        | Except.ok (_, i2) =>
          match parseExpr f 0 toks i2 with
          | Except.error e => Except.error e
          | Except.ok (initO, j1) =>
            match tryConsumeMsg TokenType.semi "Expected `;` after initialization" toks j1 with
            | Except.error e => Except.error e
            | Except.ok (_, j2) =>
              match parseExpr f 0 toks j2 with
              | Except.error e => Except.error e
              | Except.ok (condO, j3) =>
                match tryConsumeMsg TokenType.semi "Expected `;` after condition" toks j3 with
                | Except.error e => Except.error e
                | Except.ok (_, j4) =>
                  match parseExpr f 0 toks j4 with
                  | Except.error e => Except.error e
                  | Except.ok (iterO, j5) =>
                    match tryConsumeMsg TokenType.close_paren "Expected `)` after iteration" toks j5 with
                    | Except.error e => Except.error e
                    | Except.ok (_, j6) =>
                      match parseScope f toks j6 with
                      | Except.error e2 => Except.error e2
                      | Except.ok (none, _) => Except.error (PErr.fatal "Expected a scope after 'for' loop")
                      | Except.ok (some sc, k) =>
                        match initO, condO, iterO with
                        | some e0, some c0, some it0 =>
                          Except.ok (some (NodeStmt.forS e0 c0 it0 sc), k)
                        | _, _, _ => Except.error PErr.badOptionalAccess
      else if t0.type = TokenType.string_lit then
        match t0.value with
        | some v => Except.ok (some (NodeStmt.stringLitS v), i + 1)
        | none => Except.error PErr.badOptionalAccess
      else if t0.type = TokenType.true_ then Except.ok (some (NodeStmt.boolLitS true), i + 1)
      else if t0.type = TokenType.false_ then Except.ok (some (NodeStmt.boolLitS false), i + 1)
      else Except.ok (none, i)
  termination_by structural fuel

/-- `Parser::parse_prog` (parser.hpp lines 733-746). -/
def parseProg (fuel : Nat) (toks : List Token) (i : Nat) (acc : List NodeStmt) :
    Except PErr NodeProg :=
  match fuel with
  | 0 => Except.error PErr.fuel
  | f + 1 =>
    match toks.get? i with
    | none => Except.ok (NodeProg.mk acc)
    | some _ =>
      match parseStmt f toks i with
      | Except.error e => Except.error e
      | Except.ok (none, _) => Except.error (PErr.fatal "Invalid statement")
      | Except.ok (some s, j) => parseProg f toks j (acc ++ [s])
  termination_by structural fuel

end

/-- The whole parse of a token list, with ample fuel. -/
def parse_prog (toks : List Token) : Except PErr NodeProg :=
  parseProg (4 * toks.length + 64) toks 0 []

/-! ## generation.hpp

The generator emits text into `m_output` (the `.text` body) and
`m_data_section`; the embedding represents each emitted assembly line by
one constructor of `AsmLine` carrying the same operands the source
streams into the line. The fixed `global _start / section .text /
_start:` header and the `section .data` header of `gen_prog` are
formatting around these lines. -/

/-- The register names the generator passes to `push`/`pop`. -/
inductive Reg where
  | rax
  | rbx
  | rdi
deriving DecidableEq, Repr

/-- One emitted line of assembly. `movRax imm` carries the text the
source streams after "mov rax, " (an integer literal's lexeme, "0"/"1"
for booleans, "60" for the exit syscall). -/
inductive AsmLine where
  | movRax (imm : String)
  | movRdi (imm : String)
  | pushRax
  | pushQwordRsp (bytes : Nat)
  | popR (r : Reg)
  | addRaxRbx
  | subRaxRbx
  | mulRbx
  | divRbx
  | cmpRaxRbx
  | seteAl
  | movzxRaxAl
  | cmpRaxZero
  | testRaxRax
  | jeL (l : String)
  | jneL (l : String)
  | jzL (l : String)
  | jmpL (l : String)
  | labelL (l : String)
  | callL (name : String)
  | addRsp (bytes : Nat)
  | syscall
  | leaRaxLabel (l : String)
  | pushRbp
  | movRbpRsp
  | pushQwordRbp (bytes : Nat)
  | movRspRbp
  | popRbp
  | ret
deriving DecidableEq, Repr

/-- The fatal exits of the generator (`Undeclared identifier`,
`Identifier already used`), the `.value()` throw on an empty optional,
and the embedding's fuel marker. `noVisitorMatch` stands for the
`NodeTerm` alternatives (`NodeStringLit`, the function-definition node)
for which the source's `TermVisitor` declares no `operator()`. -/
inductive GenErr where
  | undeclaredIdent (name : String)
  | identAlreadyUsed (name : String)
  | badOptionalAccess
  | noVisitorMatch
  | fuel
deriving DecidableEq, Repr

/-- `struct Var` (generation.hpp lines 541-544). -/
structure Var where
  name : String
  stack_loc : Nat
deriving DecidableEq, Repr

/-- The generator's compile-time state (generation.hpp lines 19,
546-551): output buffer, data section, stack model, live variables,
scope snapshots and the two label counters. `string_label_count` is a
function-local `static` in the source (line 23); one compilation sees it
exactly as a field. -/
structure GenState where
  m_output : List AsmLine := []
  m_data_section : List (String × String) := []
  m_stack_size : Nat := 0
  m_vars : List Var := []
  m_scopes : List Nat := []
  m_label_count : Nat := 0
  string_label_count : Nat := 0
deriving DecidableEq, Repr

/-- Append one output line without touching the stack model. -/
def emitG (l : AsmLine) (st : GenState) : GenState :=
  { st with m_output := st.m_output ++ [l] }

/-- Append several output lines without touching the stack model. -/
def emitsG (ls : List AsmLine) (st : GenState) : GenState :=
  { st with m_output := st.m_output ++ ls }

/-- `Generator::push("rax")` (generation.hpp lines 507-510): emit the
push and increment `m_stack_size`. -/
def pushRaxG (st : GenState) : GenState :=
  { st with m_output := st.m_output ++ [AsmLine.pushRax], m_stack_size := st.m_stack_size + 1 }

/-- `Generator::push` applied to an offset expression
`QWORD [rsp + bytes]` (the identifier case, line 102-103). -/
def pushMemG (bytes : Nat) (st : GenState) : GenState :=
  { st with
      m_output := st.m_output ++ [AsmLine.pushQwordRsp bytes],
      m_stack_size := st.m_stack_size + 1 }

/-- `Generator::pop` (generation.hpp lines 512-515): emit the pop and
decrement `m_stack_size`. The member is a `size_t`; no reachable path
decrements it at zero, where C++ would wrap and this embedding
truncates. -/
def popG (r : Reg) (st : GenState) : GenState :=
  { st with m_output := st.m_output ++ [AsmLine.popR r], m_stack_size := st.m_stack_size - 1 }

/-- Decimal rendering of a number, most significant digit first — what
`std::stringstream::operator<<` produces for the label counter. The fuel
(`n + 1` at the wrapper) bounds the digit count; the explicit recursion
keeps the function kernel-computable and lets the label-freshness lemmas
below invert it. -/
def natReprAux (fuel n : Nat) : List Char :=
  match fuel with
  | 0 => []
  | f + 1 =>
    if n < 10 then [Nat.digitChar n]
    else natReprAux f (n / 10) ++ [Nat.digitChar (n % 10)]

/-- Decimal rendering of a number, as a string. -/
def natRepr (n : Nat) : String :=
  String.mk (natReprAux (n + 1) n)

/-- `Generator::create_label` (generation.hpp lines 535-539):
`ss << "label" << m_label_count++`. -/
def createLabel (st : GenState) : String × GenState :=
  ("label" ++ natRepr st.m_label_count, { st with m_label_count := st.m_label_count + 1 })

/-- The label string `create_label` hands out for counter value `k`. -/
def mkLabel (k : Nat) : String :=
  "label" ++ natRepr k

/-- `Generator::make_string_label` (generation.hpp lines 22-25). -/
def makeStringLabel (st : GenState) : String × GenState :=
  ("str_lit_" ++ toString st.string_label_count,
    { st with string_label_count := st.string_label_count + 1 })

/-- `escape_string` (generation.hpp lines 258-271), one character. -/
def escapeChar (c : Char) : List Char :=
  if c = '\n' then ['\\', 'n']
  else if c = '\t' then ['\\', 't']
  else if c = '"' then ['\\', '"']
  else if c = '\\' then ['\\', '\\']
  else [c]

/-- `escape_string` (generation.hpp lines 258-271). -/
def escape_string (s : String) : String :=
  String.mk (s.data.foldl (fun acc c => acc ++ escapeChar c) [])

/-- A token's `.value.value()`: the source calls it only on tokens the
lexer stamps with a value, but an absent value would throw. -/
def tokValue (t : Token) : Except GenErr String :=
  match t.value with
  | some v => Except.ok v
  | none => Except.error GenErr.badOptionalAccess

/-- The `std::find_if` over `m_vars` (generation.hpp lines 93-95 and
288-290): first variable with the given name. -/
def findVar (vars : List Var) (name : String) : Option Var :=
  vars.find? (fun v => v.name == name)

/-- `Generator::begin_scope` (generation.hpp lines 517-519). -/
def beginScope (st : GenState) : GenState :=
  { st with m_scopes := st.m_scopes ++ [st.m_vars.length] }

/-- `Generator::end_scope` (generation.hpp lines 522-532): emit one
`add rsp, 8*k` for the `k` locals introduced since the matching
`begin_scope`, shrink the stack model and the variable list. A call with
no open scope would read `m_scopes.back()` of an empty vector (undefined
behavior in C++; unreachable, since the source pairs every `end_scope`
with a `begin_scope`). -/
def endScope (st : GenState) : Except GenErr GenState :=
  match st.m_scopes.getLast? with
  | none => Except.error GenErr.badOptionalAccess
  | some back =>
    let popCount := st.m_vars.length - back
    Except.ok { st with
      m_output := st.m_output ++ [AsmLine.addRsp (popCount * 8)],
      m_stack_size := st.m_stack_size - popCount,
      m_vars := st.m_vars.take (st.m_vars.length - popCount),
      m_scopes := st.m_scopes.dropLast }

/-- `Generator::gen_param_passing` (generation.hpp lines 39-44): for
`i = params.size()-1` down to `0`, emit `push [rbp + (i+2)*8]` (raw
output, not through `push`, so the stack model is untouched). -/
def genParamPassing (params : List Token) (st : GenState) : GenState :=
  emitsG ((List.range params.length).reverse.map
    (fun i => AsmLine.pushQwordRbp ((i + 2) * 8))) st

mutual

/-- `Generator::gen_term` (generation.hpp lines 74-112): the
`TermVisitor` cases for integer literals, boolean literals, identifiers
and parenthesised expressions. The variant alternatives without an
`operator()` overload surface as `noVisitorMatch`. -/
def genTerm (fuel : Nat) (t : NodeTerm) (st : GenState) : Except GenErr GenState :=
  match fuel with
  | 0 => Except.error GenErr.fuel
  | f + 1 =>
    match t with
    | NodeTerm.intLitT tok =>
      match tokValue tok with
      | Except.error e => Except.error e
      | Except.ok v => Except.ok (pushRaxG (emitG (AsmLine.movRax v) st))
    | NodeTerm.boolLitT b =>
      Except.ok (pushRaxG (emitG (AsmLine.movRax (if b then "1" else "0")) st))
    | NodeTerm.identT tok =>
      match tokValue tok with
      | Except.error e => Except.error e
      | Except.ok name =>
        match findVar st.m_vars name with
        | none => Except.error (GenErr.undeclaredIdent name)
        | some v => Except.ok (pushMemG ((st.m_stack_size - v.stack_loc - 1) * 8) st)
    | NodeTerm.parenT e => genExpr f e st
    | NodeTerm.stringLitT _ => Except.error GenErr.noVisitorMatch
    | NodeTerm.funcDefT _ => Except.error GenErr.noVisitorMatch
  termination_by structural fuel

/-- `Generator::gen_bin_expr` (generation.hpp lines 115-226): for each
operator, lower `rhs`, lower `lhs`, `pop rax`, `pop rbx`, the operator's
lines, `push rax`; `&&` and `||` use the short-circuit label form. The
division case (lines 145-153) emits `div rbx` directly after the pops —
no instruction zeroes `rdx` first. -/
def genBinExpr (fuel : Nat) (b : NodeBinExpr) (st : GenState) : Except GenErr GenState :=
  match fuel with
  | 0 => Except.error GenErr.fuel
  | f + 1 =>
    match b with
    | NodeBinExpr.subE lhs rhs =>
      match genExpr f rhs st with
      | Except.error e => Except.error e
      | Except.ok s1 =>
        match genExpr f lhs s1 with
        | Except.error e => Except.error e
        | Except.ok s2 =>
          Except.ok (pushRaxG (emitG AsmLine.subRaxRbx (popG Reg.rbx (popG Reg.rax s2))))
    | NodeBinExpr.addE lhs rhs =>
      match genExpr f rhs st with
      | Except.error e => Except.error e
      | Except.ok s1 =>
        match genExpr f lhs s1 with
        | Except.error e => Except.error e
        | Except.ok s2 =>
          Except.ok (pushRaxG (emitG AsmLine.addRaxRbx (popG Reg.rbx (popG Reg.rax s2))))
    | NodeBinExpr.multiE lhs rhs =>
      match genExpr f rhs st with
      | Except.error e => Except.error e
      | Except.ok s1 =>
        match genExpr f lhs s1 with
        | Except.error e => Except.error e
        | Except.ok s2 =>
          Except.ok (pushRaxG (emitG AsmLine.mulRbx (popG Reg.rbx (popG Reg.rax s2))))
    | NodeBinExpr.divE lhs rhs =>
      match genExpr f rhs st with
      | Except.error e => Except.error e
      | Except.ok s1 =>
        match genExpr f lhs s1 with
        | Except.error e => Except.error e
        | Except.ok s2 =>
          Except.ok (pushRaxG (emitG AsmLine.divRbx (popG Reg.rbx (popG Reg.rax s2))))
    | NodeBinExpr.eqE lhs rhs =>
      match genExpr f rhs st with
      | Except.error e => Except.error e
      | Except.ok s1 =>
        match genExpr f lhs s1 with
        | Except.error e => Except.error e
        | Except.ok s2 =>
          Except.ok (pushRaxG (emitsG [AsmLine.cmpRaxRbx, AsmLine.seteAl, AsmLine.movzxRaxAl]
            (popG Reg.rbx (popG Reg.rax s2))))
    | NodeBinExpr.andE lhs rhs =>
      let r1 := createLabel st
      let r2 := createLabel r1.2
      match genExpr f lhs r2.2 with
      | Except.error e => Except.error e
      | Except.ok s3 =>
        let s4 := emitsG [AsmLine.cmpRaxZero, AsmLine.jeL r1.1] (popG Reg.rax s3)
        match genExpr f rhs s4 with
        | Except.error e => Except.error e
        | Except.ok s5 =>
          let s6 := emitsG [AsmLine.cmpRaxZero, AsmLine.jeL r1.1] (popG Reg.rax s5)
          Except.ok (pushRaxG (emitsG [AsmLine.movRax "1", AsmLine.jmpL r2.1,
            AsmLine.labelL r1.1, AsmLine.movRax "0", AsmLine.labelL r2.1] s6))
    | NodeBinExpr.orE lhs rhs =>
      let r1 := createLabel st
      let r2 := createLabel r1.2
      match genExpr f lhs r2.2 with
      | Except.error e => Except.error e
      | Except.ok s3 =>
        let s4 := emitsG [AsmLine.cmpRaxZero, AsmLine.jneL r1.1] (popG Reg.rax s3)
        match genExpr f rhs s4 with
        | Except.error e => Except.error e
        | Except.ok s5 =>
          let s6 := emitsG [AsmLine.cmpRaxZero, AsmLine.jneL r1.1] (popG Reg.rax s5)
          Except.ok (pushRaxG (emitsG [AsmLine.movRax "0", AsmLine.jmpL r2.1,
            AsmLine.labelL r1.1, AsmLine.movRax "1", AsmLine.labelL r2.1] s6))
  termination_by structural fuel

/-- `Generator::gen_expr` (generation.hpp lines 228-247) with the
`ExprVisitor` dispatch; the function-call case is
`Generator::gen_func_call` (lines 54-65): lower the arguments in reverse
order, emit the `call`, and, when there are arguments, one
`add rsp, 8*n` — changing neither the stack model nor pushing a result
slot. -/
def genExpr (fuel : Nat) (e : NodeExpr) (st : GenState) : Except GenErr GenState :=
  match fuel with
  | 0 => Except.error GenErr.fuel
  | f + 1 =>
    match e with
    | NodeExpr.term t => genTerm f t st
    | NodeExpr.binE b => genBinExpr f b st
    | NodeExpr.funcCallE (NodeFuncCall.mk identTok args) =>
      match genExprListRev f args.reverse st with
      | Except.error e2 => Except.error e2
      | Except.ok s1 =>
        match tokValue identTok with
        | Except.error e2 => Except.error e2
        | Except.ok name =>
          let s2 := emitG (AsmLine.callL name) s1
          Except.ok (if args.isEmpty then s2 else emitG (AsmLine.addRsp (args.length * 8)) s2)
  termination_by structural fuel

/-- The reverse-iterator loop of `gen_func_call` (generation.hpp lines
56-58), applied to an already reversed argument list. -/
def genExprListRev (fuel : Nat) (es : List NodeExpr) (st : GenState) : Except GenErr GenState :=
  match fuel with
  | 0 => Except.error GenErr.fuel
  | f + 1 =>
    match es with
    | [] => Except.ok st
    | e :: rest =>
      match genExpr f e st with
      | Except.error er => Except.error er
      | Except.ok s1 => genExprListRev f rest s1
  termination_by structural fuel

/-- `Generator::gen_scope` (generation.hpp lines 249-256). -/
def genScope (fuel : Nat) (sc : NodeScope) (st : GenState) : Except GenErr GenState :=
  match fuel with
  | 0 => Except.error GenErr.fuel
  | f + 1 =>
    match sc with
    | NodeScope.mk stmts =>
      match genStmts f stmts (beginScope st) with
      | Except.error e => Except.error e
      | Except.ok s1 => endScope s1
  termination_by structural fuel

/-- The statement loop of `gen_scope` / `gen_prog`. -/
def genStmts (fuel : Nat) (stmts : List NodeStmt) (st : GenState) : Except GenErr GenState :=
  match fuel with
  | 0 => Except.error GenErr.fuel
  | f + 1 =>
    match stmts with
    | [] => Except.ok st
    | s :: rest =>
      match genStmt f s st with
      | Except.error e => Except.error e
      | Except.ok s1 => genStmts f rest s1
  termination_by structural fuel

/-- The `NodeStmtElseIf` chain loop (generation.hpp lines 319-343),
after the shared end label has been created. -/
def genElseIfChain (fuel : Nat) (chain : NodeStmtElseIf) (endLabel : String) (st : GenState) :
    Except GenErr GenState :=
  match fuel with
  | 0 => Except.error GenErr.fuel
  | f + 1 =>
    match chain with
    | NodeStmtElseIf.mk e sc nxt =>
      let r := createLabel st
      match genExpr f e r.2 with
      | Except.error er => Except.error er
      | Except.ok s2 =>
        let s3 := emitsG [AsmLine.cmpRaxZero, AsmLine.jeL r.1] (popG Reg.rax s2)
        match genScope f sc s3 with
        | Except.error er => Except.error er
        | Except.ok s4 =>
          let s5 := emitsG [AsmLine.jmpL endLabel, AsmLine.labelL r.1] s4
          match nxt with
          | none => Except.ok s5
          | some ch2 => genElseIfChain f ch2 endLabel s5
  termination_by structural fuel

/-- `Generator::gen_func_def` (generation.hpp lines 46-52): label,
prologue, parameter glue, body, epilogue. -/
def genFuncDef (fuel : Nat) (fd : NodeFuncDef) (st : GenState) : Except GenErr GenState :=
  match fuel with
  | 0 => Except.error GenErr.fuel
  | f + 1 =>
    match fd with
    | NodeFuncDef.mk identTok params body =>
      match tokValue identTok with
      | Except.error e => Except.error e
      | Except.ok name =>
        let st1 := genParamPassing params
          (emitsG [AsmLine.labelL name, AsmLine.pushRbp, AsmLine.movRbpRsp] st)
        match genScope f body st1 with
        | Except.error e => Except.error e
        | Except.ok s2 => Except.ok (emitsG [AsmLine.movRspRbp, AsmLine.popRbp, AsmLine.ret] s2)
  termination_by structural fuel

/-- `Generator::gen_stmt` (generation.hpp lines 273-482), the
`StmtVisitor` dispatch. The bare boolean-literal statement (lines
395-399) emits `mov rax, 0/1; push rax`; the bare string-literal
statement (lines 401-411) appends a null-terminated entry to the data
section and emits `lea rax, [label]; push rax` — both push one slot. -/
def genStmt (fuel : Nat) (s : NodeStmt) (st : GenState) : Except GenErr GenState :=
  match fuel with
  | 0 => Except.error GenErr.fuel
  | f + 1 =>
    match s with
    | NodeStmt.exitS e =>
      match genExpr f e st with
      | Except.error er => Except.error er
      | Except.ok s1 =>
        Except.ok (emitG AsmLine.syscall (popG Reg.rdi (emitG (AsmLine.movRax "60") s1)))
    | NodeStmt.letS identTok e =>
      match tokValue identTok with
      | Except.error er => Except.error er
      | Except.ok name =>
        match findVar st.m_vars name with
        | some _ => Except.error (GenErr.identAlreadyUsed name)
        | none =>
          genExpr f e { st with m_vars := st.m_vars ++ [{ name := name, stack_loc := st.m_stack_size }] }
    | NodeStmt.scopeS sc => genScope f sc st
    | NodeStmt.elseS sc => genScope f sc st
    | NodeStmt.ifS e sc =>
      match genExpr f e st with
      | Except.error er => Except.error er
      | Except.ok s1 =>
        let r := createLabel (popG Reg.rax s1)
        match genScope f sc (emitsG [AsmLine.testRaxRax, AsmLine.jzL r.1] r.2) with
        | Except.error er => Except.error er
        | Except.ok s2 => Except.ok (emitG (AsmLine.labelL r.1) s2)
    | NodeStmt.elseIfS chain =>
      let r := createLabel st
      match genElseIfChain f chain r.1 r.2 with
      | Except.error er => Except.error er
      | Except.ok s2 => Except.ok (emitG (AsmLine.labelL r.1) s2)
    | NodeStmt.whileS e sc =>
      let r1 := createLabel st
      let r2 := createLabel r1.2
      match genExpr f e (emitG (AsmLine.labelL r1.1) r2.2) with
      | Except.error er => Except.error er
      | Except.ok s1 =>
        let s2 := emitsG [AsmLine.cmpRaxZero, AsmLine.jeL r2.1] (popG Reg.rax s1)
        match genScope f sc s2 with
        | Except.error er => Except.error er
        | Except.ok s3 => Except.ok (emitsG [AsmLine.jmpL r1.1, AsmLine.labelL r2.1] s3)
    | NodeStmt.forS init cond iter sc =>
      let r1 := createLabel st
      let r2 := createLabel r1.2
      match genExpr f init r2.2 with
      | Except.error er => Except.error er
      | Except.ok s1 =>
        match genExpr f cond (emitG (AsmLine.labelL r1.1) s1) with
        | Except.error er => Except.error er
        | Except.ok s2 =>
          let s3 := emitsG [AsmLine.cmpRaxZero, AsmLine.jeL r2.1] (popG Reg.rax s2)
          match genScope f sc s3 with
          | Except.error er => Except.error er
          | Except.ok s4 =>
            match genExpr f iter s4 with
            | Except.error er => Except.error er
            | Except.ok s5 => Except.ok (emitsG [AsmLine.jmpL r1.1, AsmLine.labelL r2.1] s5)
    | NodeStmt.boolLitS b =>
      Except.ok (pushRaxG (emitG (AsmLine.movRax (if b then "1" else "0")) st))
    | NodeStmt.stringLitS v =>
      let r := makeStringLabel st
      let st2 := { r.2 with m_data_section := r.2.m_data_section ++ [(r.1, escape_string v)] }
      Except.ok (pushRaxG (emitG (AsmLine.leaRaxLabel r.1) st2))
    | NodeStmt.funcDefS fd => genFuncDef f fd st
  termination_by structural fuel

end

/-- The generator's output: the `.text` body (between the `_start:`
header and nothing else — `gen_prog` appends the exit sequence to it)
and the `.data` entries (`label: db "payload", 0`). -/
structure AsmOut where
  text : List AsmLine
  data : List (String × String)
deriving DecidableEq, Repr

/-- `Generator::gen_prog` (generation.hpp lines 484-504): lower every
top-level statement, then append the common exit sequence
`mov rax, 60; mov rdi, 0; syscall`; the data section follows the text
section when string literals exist. -/
def gen_prog (prog : NodeProg) : Except GenErr AsmOut :=
  match genStmts 1024 prog.stmts {} with
  | Except.error e => Except.error e
  | Except.ok st =>
    let fin := emitsG [AsmLine.movRax "60", AsmLine.movRdi "0", AsmLine.syscall] st
    Except.ok { text := fin.m_output, data := fin.m_data_section }

/-! ## A small machine model

An interpreter for the straight-line arithmetic fragment of the emitted
assembly (`mov`/`push`/`pop`/`add`/`sub`/`mul`/`div`/`syscall`), enough
to run programs with no control flow. Registers hold 64-bit values
(`Nat` reduced modulo `2 ^ 64`); `mul rbx` widens into `rdx:rax` and
`div rbx` divides `rdx:rax`, faulting (`none`) on a zero divisor or a
quotient that overflows 64 bits, exactly the x86 `#DE` conditions. A
`syscall` with `rax = 60` exits with status `rdi` masked to a byte; any
instruction outside the fragment stops the interpreter with `none`. -/

def w64 : Nat := 2 ^ 64

/-- Machine registers, the zero flag, and the stack. At `_start` on
Linux the registers the fragment reads are zero and the compiler-managed
stack is empty. The zero flag is read only by the conditional jumps and
`sete`, each of which the generator places directly behind the `cmp` or
`test` that sets it. -/
structure MState where
  rax : Nat := 0
  rbx : Nat := 0
  rdx : Nat := 0
  rdi : Nat := 0
  zf : Bool := false
  stack : List Nat := []
deriving DecidableEq, Repr

def setReg (r : Reg) (v : Nat) (st : MState) : MState :=
  match r with
  | Reg.rax => { st with rax := v }
  | Reg.rbx => { st with rbx := v }
  | Reg.rdi => { st with rdi := v }

/-- Decimal digits to a number, most significant first. -/
def digitsToNat (cs : List Char) (acc : Nat) : Nat :=
  match cs with
  | [] => acc
  | c :: rest => digitsToNat rest (acc * 10 + (c.toNat - '0'.toNat))

/-- NASM reads the emitted decimal text back as a number (the generator
only streams digit strings into immediates: integer lexemes, 0/1 for
booleans, 60 for the exit syscall), reduced to 64 bits. -/
def readImm (s : String) : Nat :=
  digitsToNat s.data 0 % w64

def execAsm : List AsmLine → MState → Option Nat
  | [], _ => none
  | l :: rest, st =>
    match l with
    | AsmLine.movRax imm => execAsm rest { st with rax := readImm imm }
    | AsmLine.movRdi imm => execAsm rest { st with rdi := readImm imm }
    | AsmLine.pushRax => execAsm rest { st with stack := st.rax :: st.stack }
    | AsmLine.pushQwordRsp bytes =>
      match st.stack.get? (bytes / 8) with
      | none => none
      | some v => execAsm rest { st with stack := v :: st.stack }
    | AsmLine.popR r =>
      match st.stack with
      | [] => none
      | v :: tl => execAsm rest (setReg r v { st with stack := tl })
    | AsmLine.addRaxRbx => execAsm rest { st with rax := (st.rax + st.rbx) % w64 }
    | AsmLine.subRaxRbx => execAsm rest { st with rax := (st.rax + w64 - st.rbx) % w64 }
    | AsmLine.mulRbx =>
      execAsm rest { st with rax := st.rax * st.rbx % w64, rdx := st.rax * st.rbx / w64 }
    | AsmLine.divRbx =>
      if st.rbx = 0 then none
      else
        if w64 ≤ (st.rdx * w64 + st.rax) / st.rbx then none
        else execAsm rest { st with
          rax := (st.rdx * w64 + st.rax) / st.rbx,
          rdx := (st.rdx * w64 + st.rax) % st.rbx }
    | AsmLine.syscall => if st.rax = 60 then some (st.rdi % 256) else none
    | _ => none

/-- The full pipeline of `main.cpp` (lines 38-53): tokenize, parse,
generate. -/
def compileStr (s : String) : Option AsmOut :=
  match tokenize s with
  | Except.error _ => none
  | Except.ok toks =>
    match parse_prog toks with
    | Except.error _ => none
    | Except.ok prog =>
      match gen_prog prog with
      | Except.error _ => none
      | Except.ok out => some out

/-- Compile and run from the empty machine state: the exit status of the
assembled program, or `none` when compilation fails, the program faults,
or it leaves the straight-line fragment. -/
def compileRun (s : String) : Option Nat :=
  match compileStr s with
  | none => none
  | some out => execAsm out.text {}

/-- Resolve a forward jump: the instructions remaining after the first
`labelL l` of the stream, with the length bound that makes the
interpreter below terminate. A missing label leaves nothing to run
(the interpreter then stops with `none`, like any other stuck state). -/
def afterLabel (l : String) : (xs : List AsmLine) → { ys : List AsmLine // ys.length ≤ xs.length }
  | [] => ⟨[], by simp⟩
  | AsmLine.labelL l2 :: rest =>
    if l2 = l then ⟨rest, by simp⟩
    else ⟨(afterLabel l rest).1, by have := (afterLabel l rest).2; simp; omega⟩
  | AsmLine.movRax imm :: rest =>
    ⟨(afterLabel l rest).1, by have := (afterLabel l rest).2; simp; omega⟩
  | i :: rest =>
    ⟨(afterLabel l rest).1, by have := (afterLabel l rest).2; simp; omega⟩

/-- The instruction stream a taken forward branch continues with. -/
def afterLabelL (l : String) (xs : List AsmLine) : List AsmLine :=
  (afterLabel l xs).1

/-- An interpreter extending `execAsm` with the zero flag, `cmp`/`test`/
`sete`/`movzx`, labels, and *forward* branches (`jmp`/`je`/`jz`/`jne`
resolve to the first matching label further down the stream — every
branch the generator emits for expressions jumps forward, and label
names are globally unique by the counter). `sete al` overwrites the low
byte of `rax` with the zero flag and `movzx rax, al` zero-extends it
back. Arithmetic flag side effects are not modelled: the generator
places every flag consumer directly behind its `cmp`/`test`. The
instructions of the function-call machinery stay outside the fragment
(`none`). -/
def execJ : List AsmLine → MState → Option Nat
  | [], _ => none
  | l :: rest, st =>
    match l with
    | AsmLine.movRax imm => execJ rest { st with rax := readImm imm }
    | AsmLine.movRdi imm => execJ rest { st with rdi := readImm imm }
    | AsmLine.pushRax => execJ rest { st with stack := st.rax :: st.stack }
    | AsmLine.pushQwordRsp bytes =>
      match st.stack.get? (bytes / 8) with
      | none => none
      | some v => execJ rest { st with stack := v :: st.stack }
    | AsmLine.popR r =>
      match st.stack with
      | [] => none
      | v :: tl => execJ rest (setReg r v { st with stack := tl })
    | AsmLine.addRaxRbx => execJ rest { st with rax := (st.rax + st.rbx) % w64 }
    | AsmLine.subRaxRbx => execJ rest { st with rax := (st.rax + w64 - st.rbx) % w64 }
    | AsmLine.mulRbx =>
      execJ rest { st with rax := st.rax * st.rbx % w64, rdx := st.rax * st.rbx / w64 }
    | AsmLine.divRbx =>
      if st.rbx = 0 then none
      else
        if w64 ≤ (st.rdx * w64 + st.rax) / st.rbx then none
        else execJ rest { st with
          rax := (st.rdx * w64 + st.rax) / st.rbx,
          rdx := (st.rdx * w64 + st.rax) % st.rbx }
    | AsmLine.cmpRaxRbx => execJ rest { st with zf := st.rax = st.rbx }
    | AsmLine.cmpRaxZero => execJ rest { st with zf := st.rax = 0 }
    | AsmLine.testRaxRax => execJ rest { st with zf := st.rax = 0 }
    | AsmLine.seteAl =>
      execJ rest { st with rax := st.rax / 256 * 256 + (if st.zf then 1 else 0) }
    | AsmLine.movzxRaxAl => execJ rest { st with rax := st.rax % 256 }
    | AsmLine.labelL _ => execJ rest st
    | AsmLine.jmpL lb => execJ (afterLabelL lb rest) st
    | AsmLine.jeL lb => if st.zf then execJ (afterLabelL lb rest) st else execJ rest st
    | AsmLine.jzL lb => if st.zf then execJ (afterLabelL lb rest) st else execJ rest st
    | AsmLine.jneL lb => if st.zf then execJ rest st else execJ (afterLabelL lb rest) st
    | AsmLine.syscall => if st.rax = 60 then some (st.rdi % 256) else none
    | _ => none
  termination_by xs _ => xs.length
  decreasing_by
    all_goals simp [afterLabelL]
    all_goals exact Nat.lt_succ_of_le (afterLabel _ rest).2

/-! ## Predicates and fixtures used by the theorems -/

/-- Whether a parse function returned C++'s empty `std::optional` (as
opposed to failing fatally or succeeding). -/
def returnsEmpty {α : Type} : Except PErr (Option α × Nat) → Bool
  | Except.ok (none, _) => true
  | _ => false

mutual

/-- Expressions built only from the term forms the generator's
`TermVisitor` handles (integer literal, boolean literal, identifier,
parentheses) and binary nodes — no function calls anywhere inside. -/
def noCallE : NodeExpr → Bool
  | NodeExpr.term t => noCallT t
  | NodeExpr.binE b => noCallB b
  | NodeExpr.funcCallE _ => false

def noCallT : NodeTerm → Bool
  | NodeTerm.intLitT _ => true
  | NodeTerm.identT _ => true
  | NodeTerm.parenT e => noCallE e
  | NodeTerm.boolLitT _ => true
  | NodeTerm.stringLitT _ => false
  | NodeTerm.funcDefT _ => false

def noCallB : NodeBinExpr → Bool
  | NodeBinExpr.addE l r => noCallE l && noCallE r
  | NodeBinExpr.subE l r => noCallE l && noCallE r
  | NodeBinExpr.multiE l r => noCallE l && noCallE r
  | NodeBinExpr.divE l r => noCallE l && noCallE r
  | NodeBinExpr.eqE l r => noCallE l && noCallE r
  | NodeBinExpr.andE l r => noCallE l && noCallE r
  | NodeBinExpr.orE l r => noCallE l && noCallE r

end

mutual

/-- The value-computing fragment: expressions built only from integer
literals carrying their lexeme, boolean literals, parentheses, and the
operators `+ - * == && ||`. Their lowerings read nothing but their own
pushes, so their value is a function of the expression alone; excluded
are identifiers (their `push QWORD [rsp + k]` reads the surrounding
stack), division (its lowering omits the `rdx` zeroing — claim C6) and
function calls (no result slot — the C5 counterexample). -/
def valFragE : NodeExpr → Bool
  | NodeExpr.term t => valFragT t
  | NodeExpr.binE b => valFragB b
  | NodeExpr.funcCallE _ => false

def valFragT : NodeTerm → Bool
  | NodeTerm.intLitT tok => tok.value.isSome
  | NodeTerm.identT _ => false
  | NodeTerm.parenT e => valFragE e
  | NodeTerm.boolLitT _ => true
  | NodeTerm.stringLitT _ => false
  | NodeTerm.funcDefT _ => false

def valFragB : NodeBinExpr → Bool
  | NodeBinExpr.addE l r => valFragE l && valFragE r
  | NodeBinExpr.subE l r => valFragE l && valFragE r
  | NodeBinExpr.multiE l r => valFragE l && valFragE r
  | NodeBinExpr.divE _ _ => false
  | NodeBinExpr.eqE l r => valFragE l && valFragE r
  | NodeBinExpr.andE l r => valFragE l && valFragE r
  | NodeBinExpr.orE l r => valFragE l && valFragE r

end

mutual

/-- The 64-bit value the emitted code computes for a fragment
expression: the instruction semantics of `execJ` folded over the tree —
`add`/`sub`/`mul` reduced modulo `2^64`, `==` and the short-circuit
forms as 0/1, integer literals read back from their decimal lexeme. -/
def evalExprV : NodeExpr → Nat
  | NodeExpr.term t => evalTermV t
  | NodeExpr.binE b => evalBinV b
  | NodeExpr.funcCallE _ => 0

def evalTermV : NodeTerm → Nat
  | NodeTerm.intLitT tok =>
    match tok.value with
    | some v => readImm v
    | none => 0
  | NodeTerm.identT _ => 0
  | NodeTerm.parenT e => evalExprV e
  | NodeTerm.boolLitT b => if b then 1 else 0
  | NodeTerm.stringLitT _ => 0
  | NodeTerm.funcDefT _ => 0

def evalBinV : NodeBinExpr → Nat
  | NodeBinExpr.addE l r => (evalExprV l + evalExprV r) % w64
  | NodeBinExpr.subE l r => (evalExprV l + w64 - evalExprV r) % w64
  | NodeBinExpr.multiE l r => evalExprV l * evalExprV r % w64
  | NodeBinExpr.divE _ _ => 0
  | NodeBinExpr.eqE l r => if evalExprV l = evalExprV r then 1 else 0
  | NodeBinExpr.andE l r =>
    if evalExprV l = 0 then 0 else if evalExprV r = 0 then 0 else 1
  | NodeBinExpr.orE l r =>
    if evalExprV l = 0 then (if evalExprV r = 0 then 0 else 1) else 1

end

/-- What one `gen_expr` call on a fragment expression guarantees about
the generator state, relating the compile-time run from `st` to `s2`
with the machine semantics: the output grew by a slice `sl`; every label
defined inside the slice was handed out by `create_label` during this
call (its counter lies in `[st.m_label_count, s2.m_label_count)` — that
is what makes jump targets of an enclosing expression miss the slice);
and running the slice ahead of any continuation from any machine state
reaches the continuation with the expression's value `v` pushed and
everything below untouched. -/
def GoodSlice (st s2 : GenState) (v : Nat) : Prop :=
  st.m_label_count ≤ s2.m_label_count ∧
  ∃ sl, s2.m_output = st.m_output ++ sl ∧
    (∀ l, AsmLine.labelL l ∈ sl →
      ∃ k, st.m_label_count ≤ k ∧ k < s2.m_label_count ∧ l = mkLabel k) ∧
    (∀ rest m, ∃ m2, execJ (sl ++ rest) m = execJ rest m2 ∧ m2.stack = v :: m.stack)

/-- Spec scenario 2: `let x = 2 + 3 * 4; exit(x);`. -/
def srcPrecedence : String := "let x = 2 + 3 * 4; exit(x);"

/-- The token stream of `srcPrecedence`. -/
def letExitToks : List Token :=
  [{ type := TokenType.let_ }, { type := TokenType.ident, value := some "x" },
   { type := TokenType.eq }, { type := TokenType.int_lit, value := some "2" },
   { type := TokenType.plus }, { type := TokenType.int_lit, value := some "3" },
   { type := TokenType.star }, { type := TokenType.int_lit, value := some "4" },
   { type := TokenType.semi }, { type := TokenType.exit }, { type := TokenType.open_paren },
   { type := TokenType.ident, value := some "x" }, { type := TokenType.close_paren },
   { type := TokenType.semi }]

/-- The AST the parser builds for `srcPrecedence`: `x` bound to
`2 + (3 * 4)` — the multiplication grouped under the addition. -/
def letExitProg : NodeProg :=
  NodeProg.mk
    [NodeStmt.letS { type := TokenType.ident, value := some "x" }
      (NodeExpr.binE (NodeBinExpr.addE
        (NodeExpr.term (NodeTerm.intLitT { type := TokenType.int_lit, value := some "2" }))
        (NodeExpr.binE (NodeBinExpr.multiE
          (NodeExpr.term (NodeTerm.intLitT { type := TokenType.int_lit, value := some "3" }))
          (NodeExpr.term (NodeTerm.intLitT { type := TokenType.int_lit, value := some "4" })))))),
     NodeStmt.exitS (NodeExpr.term (NodeTerm.identT { type := TokenType.ident, value := some "x" }))]

/-- A division whose left operand is a product with a 128-bit result:
`mul rbx` leaves the high 64 bits in `rdx`, and the following `div rbx`
divides `rdx:rax` — with nothing zeroing `rdx` in between. -/
def srcDivNoZeroRdx : String := "exit(5000000000 * 5000000000 / 1);"

/-- The instruction stream the generator emits for `srcDivNoZeroRdx`:
the division lowering is `pop rax; pop rbx; div rbx; push rax` with no
instruction writing `rdx` between the preceding `mul rbx` and the
`div rbx`. -/
def divProgAsm : List AsmLine :=
  [AsmLine.movRax "1", AsmLine.pushRax,
   AsmLine.movRax "5000000000", AsmLine.pushRax,
   AsmLine.movRax "5000000000", AsmLine.pushRax,
   AsmLine.popR Reg.rax, AsmLine.popR Reg.rbx, AsmLine.mulRbx, AsmLine.pushRax,
   AsmLine.popR Reg.rax, AsmLine.popR Reg.rbx, AsmLine.divRbx, AsmLine.pushRax,
   AsmLine.movRax "60", AsmLine.popR Reg.rdi, AsmLine.syscall,
   AsmLine.movRax "60", AsmLine.movRdi "0", AsmLine.syscall]

/-- An expression the claim C5 witness evaluates: the integer literal 3. -/
def c5WitnessExpr : NodeExpr :=
  NodeExpr.term (NodeTerm.intLitT { type := TokenType.int_lit, value := some "3" })

/-- The generator state after lowering `c5WitnessExpr` from the initial
state. -/
def c5WitnessState : GenState :=
  { m_output := [AsmLine.movRax "3", AsmLine.pushRax], m_stack_size := 1 }

/-! ## Helper lemmas -/

theorem returnsEmpty_error {α : Type} (e : PErr) :
    returnsEmpty (α := α) (Except.error e) = false := rfl

theorem returnsEmpty_ok_some {α : Type} (a : α) (j : Nat) :
    returnsEmpty (Except.ok (some a, j)) = false := rfl

theorem parseNeverEmpty (f : Nat) :
    (∀ minPrec toks i, returnsEmpty (parseExpr f minPrec toks i) = false) ∧
    (∀ minPrec lhs toks i, returnsEmpty (parseExprLoop f minPrec lhs toks i) = false) ∧
    (∀ toks i, returnsEmpty (parseTerm f toks i) = false) ∧
    (∀ toks i, returnsEmpty (parseFuncCall f toks i) = false) ∧
    (∀ toks i acc, returnsEmpty (parseFuncCallArgs f toks i acc) = false) ∧
    (∀ toks i, returnsEmpty (parseFuncDef f toks i) = false) := by
  induction f with
  | zero =>
    exact ⟨fun _ _ _ => rfl, fun _ _ _ _ => rfl, fun _ _ => rfl, fun _ _ => rfl,
      fun _ _ _ => rfl, fun _ _ => rfl⟩
  | succ f ih =>
    obtain ⟨ihE, ihL, ihT, ihC, ihA, ihD⟩ := ih
    refine ⟨?_, ?_, ?_, ?_, ?_, ?_⟩
    · intro minPrec toks i
      simp only [parseExpr]
      split
      · have h := ihC toks i
        cases hc : parseFuncCall f toks i with
        | error e => rfl
        | ok v =>
          obtain ⟨o, j⟩ := v
          try dsimp only
          cases o with
          | none => rw [hc] at h; exact h
          | some fc => rfl
      · have h := ihT toks i
        cases ht : parseTerm f toks i with
        | error e => rfl
        | ok v =>
          obtain ⟨o, j⟩ := v
          try dsimp only
          cases o with
          | none => rw [ht] at h; exact h
          | some t => exact ihL minPrec (NodeExpr.term t) toks j
    · intro minPrec lhs toks i
      simp only [parseExprLoop]
      cases toks.get? i with
      | none => rfl
      | some tok =>
        try dsimp only
        cases bin_prec tok.type with
        | none => rfl
        | some p =>
          try dsimp only
          split
          · rfl
          · cases hr : parseExpr f (p + 1) toks (i + 1) with
            | error e => rfl
            | ok v =>
              obtain ⟨o, j⟩ := v
              try dsimp only
              cases o with
              | none => rfl
              | some rhs =>
                try dsimp only
                cases foldBinOp tok.type lhs rhs with
                | none => rfl
                | some newLhs => exact ihL minPrec newLhs toks j
    · intro toks i
      simp only [parseTerm]
      cases tryConsume TokenType.true_ toks i with
      | some v => obtain ⟨t1, j⟩ := v; rfl
      | none =>
      try dsimp only
      cases tryConsume TokenType.false_ toks i with
      | some v => obtain ⟨t1, j⟩ := v; rfl
      | none =>
      try dsimp only
      cases tryConsume TokenType.int_lit toks i with
      | some v => obtain ⟨t1, j⟩ := v; rfl
      | none =>
      try dsimp only
      cases tryConsume TokenType.ident toks i with
      | some v => obtain ⟨t1, j⟩ := v; rfl
      | none =>
      try dsimp only
      cases tryConsume TokenType.open_paren toks i with
      | some v =>
        obtain ⟨t1, j⟩ := v
        try dsimp only
        cases parseExpr f 0 toks j with
        | error e => rfl
        | ok v2 =>
          obtain ⟨o, k⟩ := v2
          try dsimp only
          cases o with
          | none => rfl
          | some e =>
            try dsimp only
            cases tryConsumeMsg TokenType.close_paren "Expected `)`" toks k with
            | error er => rfl
            | ok v3 => obtain ⟨t2, k2⟩ := v3; rfl
      | none =>
        try dsimp only
        have h := ihD toks i
        cases hd : parseFuncDef f toks i with
        | error e => rfl
        | ok v =>
          obtain ⟨o, j⟩ := v
          try dsimp only
          cases o with
          | none => rw [hd] at h; exact h
          | some fd => rfl
    · intro toks i
      simp only [parseFuncCall]
      cases expect TokenType.ident "Expected function name identifier" toks i with
      | error e => rfl
      | ok v =>
        obtain ⟨identTok, i1⟩ := v
        try dsimp only
        cases expect TokenType.open_paren "Expected '(' for function call" toks i1 with
        | error e => rfl
        | ok v2 =>
          obtain ⟨t1, i2⟩ := v2
          try dsimp only
          have h := ihA toks i2 []
          cases ha : parseFuncCallArgs f toks i2 [] with
          | error e => rfl
          | ok v3 =>
            obtain ⟨o, j⟩ := v3
            try dsimp only
            cases o with
            | none => rw [ha] at h; exact h
            | some args =>
              try dsimp only
              cases expect TokenType.close_paren "Expected ')' after function call arguments" toks j with
              | error e => rfl
              | ok v4 => obtain ⟨t2, k⟩ := v4; rfl
    · intro toks i acc
      simp only [parseFuncCallArgs]
      cases toks.get? i with
      | none => rfl
      | some t =>
        try dsimp only
        split
        · rfl
        · have h := ihE 0 toks i
          cases hr : parseExpr f 0 toks i with
          | error e => rfl
          | ok v =>
            obtain ⟨o, j⟩ := v
            try dsimp only
            cases o with
            | none => rw [hr] at h; exact h
            | some a => exact ihA toks _ (acc ++ [a])
    · intro toks i
      simp only [parseFuncDef]
      cases expect TokenType.function "Expected 'function' keyword" toks i with
      | error e => rfl
      | ok v =>
        obtain ⟨t1, i1⟩ := v
        try dsimp only
        cases expect TokenType.ident "Expected function name identifier" toks i1 with
        | error e => rfl
        | ok v2 =>
          obtain ⟨identTok, i2⟩ := v2
          try dsimp only
          cases parseParamList f toks i2 with
          | error e => rfl
          | ok v3 =>
            obtain ⟨params, i3⟩ := v3
            try dsimp only
            cases parseScope f toks i3 with
            | error e => rfl
            | ok v4 =>
              obtain ⟨o, i4⟩ := v4
              try dsimp only
              cases o with
              | none => rfl
              | some body => rfl
theorem m_stack_size_emitG (l : AsmLine) (st : GenState) :
    (emitG l st).m_stack_size = st.m_stack_size := rfl

theorem m_stack_size_emitsG (ls : List AsmLine) (st : GenState) :
    (emitsG ls st).m_stack_size = st.m_stack_size := rfl

theorem m_stack_size_pushRaxG (st : GenState) :
    (pushRaxG st).m_stack_size = st.m_stack_size + 1 := rfl

theorem m_stack_size_pushMemG (b : Nat) (st : GenState) :
    (pushMemG b st).m_stack_size = st.m_stack_size + 1 := rfl

theorem m_stack_size_popG (r : Reg) (st : GenState) :
    (popG r st).m_stack_size = st.m_stack_size - 1 := rfl

theorem m_stack_size_createLabel (st : GenState) :
    (createLabel st).2.m_stack_size = st.m_stack_size := rfl

theorem genStackAux (f : Nat) :
    (∀ e s s2, noCallE e = true → genExpr f e s = Except.ok s2 →
      s2.m_stack_size = s.m_stack_size + 1) ∧
    (∀ t s s2, noCallT t = true → genTerm f t s = Except.ok s2 →
      s2.m_stack_size = s.m_stack_size + 1) ∧
    (∀ b s s2, noCallB b = true → genBinExpr f b s = Except.ok s2 →
      s2.m_stack_size = s.m_stack_size + 1) := by
  induction f with
  | zero =>
    refine ⟨?_, ?_, ?_⟩
    · intro e s s2 _ h; simp [genExpr] at h
    · intro t s s2 _ h; simp [genTerm] at h
    · intro b s s2 _ h; simp [genBinExpr] at h
  | succ f ih =>
    obtain ⟨ihE, ihT, ihB⟩ := ih
    refine ⟨?_, ?_, ?_⟩
    · intro e s s2 hnc h
      cases e with
      | term t =>
        simp only [genExpr] at h
        exact ihT t s s2 (by simpa [noCallE] using hnc) h
      | binE b =>
        simp only [genExpr] at h
        exact ihB b s s2 (by simpa [noCallE] using hnc) h
      | funcCallE fc => simp [noCallE] at hnc
    · intro t s s2 hnc h
      cases t with
      | intLitT tok =>
        simp only [genTerm] at h
        split at h
        · simp at h
        · injection h with h2
          rw [← h2]
          rfl
      | boolLitT b =>
        simp only [genTerm] at h
        injection h with h2
        rw [← h2]
        rfl
      | identT tok =>
        simp only [genTerm] at h
        split at h
        · simp at h
        · split at h
          · simp at h
          · injection h with h2
            rw [← h2]
            rfl
      | parenT e =>
        simp only [genTerm] at h
        exact ihE e s s2 (by simpa [noCallT] using hnc) h
      | stringLitT v => simp [noCallT] at hnc
      | funcDefT fd => simp [noCallT] at hnc
    · intro b s s2 hnc h
      cases b with
      | addE l r =>
        simp only [noCallB, Bool.and_eq_true] at hnc
        simp only [genBinExpr] at h
        split at h
        · simp at h
        next s1 heq =>
          split at h
          · simp at h
          next s3 heq2 =>
            injection h with h2
            have e1 := ihE r s s1 hnc.2 heq
            have e2 := ihE l s1 s3 hnc.1 heq2
            rw [← h2, m_stack_size_pushRaxG, m_stack_size_emitG, m_stack_size_popG,
              m_stack_size_popG]
            omega
      | subE l r =>
        simp only [noCallB, Bool.and_eq_true] at hnc
        simp only [genBinExpr] at h
        split at h
        · simp at h
        next s1 heq =>
          split at h
          · simp at h
          next s3 heq2 =>
            injection h with h2
            have e1 := ihE r s s1 hnc.2 heq
            have e2 := ihE l s1 s3 hnc.1 heq2
            rw [← h2, m_stack_size_pushRaxG, m_stack_size_emitG, m_stack_size_popG,
              m_stack_size_popG]
            omega
      | multiE l r =>
        simp only [noCallB, Bool.and_eq_true] at hnc
        simp only [genBinExpr] at h
        split at h
        · simp at h
        next s1 heq =>
          split at h
          · simp at h
          next s3 heq2 =>
            injection h with h2
            have e1 := ihE r s s1 hnc.2 heq
            have e2 := ihE l s1 s3 hnc.1 heq2
            rw [← h2, m_stack_size_pushRaxG, m_stack_size_emitG, m_stack_size_popG,
              m_stack_size_popG]
            omega
      | divE l r =>
        simp only [noCallB, Bool.and_eq_true] at hnc
        simp only [genBinExpr] at h
        split at h
        · simp at h
        next s1 heq =>
          split at h
          · simp at h
          next s3 heq2 =>
            injection h with h2
            have e1 := ihE r s s1 hnc.2 heq
            have e2 := ihE l s1 s3 hnc.1 heq2
            rw [← h2, m_stack_size_pushRaxG, m_stack_size_emitG, m_stack_size_popG,
              m_stack_size_popG]
            omega
      | eqE l r =>
        simp only [noCallB, Bool.and_eq_true] at hnc
        simp only [genBinExpr] at h
        split at h
        · simp at h
        next s1 heq =>
          split at h
          · simp at h
          next s3 heq2 =>
            injection h with h2
            have e1 := ihE r s s1 hnc.2 heq
            have e2 := ihE l s1 s3 hnc.1 heq2
            rw [← h2, m_stack_size_pushRaxG, m_stack_size_emitsG, m_stack_size_popG,
              m_stack_size_popG]
            omega
      | andE l r =>
        simp only [noCallB, Bool.and_eq_true] at hnc
        simp only [genBinExpr] at h
        split at h
        · simp at h
        next s3 heq =>
          split at h
          · simp at h
          next s5 heq2 =>
            injection h with h2
            have e1 := ihE l _ s3 hnc.1 heq
            have e2 := ihE r _ s5 hnc.2 heq2
            rw [m_stack_size_createLabel, m_stack_size_createLabel] at e1
            rw [m_stack_size_emitsG, m_stack_size_popG] at e2
            rw [← h2]
            simp only [m_stack_size_pushRaxG, m_stack_size_emitsG, m_stack_size_popG]
            omega
      | orE l r =>
        simp only [noCallB, Bool.and_eq_true] at hnc
        simp only [genBinExpr] at h
        split at h
        · simp at h
        next s3 heq =>
          split at h
          · simp at h
          next s5 heq2 =>
            injection h with h2
            have e1 := ihE l _ s3 hnc.1 heq
            have e2 := ihE r _ s5 hnc.2 heq2
            rw [m_stack_size_createLabel, m_stack_size_createLabel] at e1
            rw [m_stack_size_emitsG, m_stack_size_popG] at e2
            rw [← h2]
            simp only [m_stack_size_pushRaxG, m_stack_size_emitsG, m_stack_size_popG]
            omega

/-! ### Label arithmetic and the jump-target machinery for claim C5 -/

/-- Folding decimal digits distributes over list append. -/
theorem digitsToNat_append (xs ys : List Char) (acc : Nat) :
    digitsToNat (xs ++ ys) acc = digitsToNat ys (digitsToNat xs acc) := by
  induction xs generalizing acc with
  | nil => rfl
  | cons c xs ih => simp [digitsToNat, ih]

theorem digitChar_toNat : ∀ n < 10, (Nat.digitChar n).toNat - '0'.toNat = n := by decide

theorem natReprAux_spec (fuel : Nat) : ∀ n acc, n < fuel →
    digitsToNat (natReprAux fuel n) acc = acc * 10 ^ (natReprAux fuel n).length + n := by
  induction fuel with
  | zero => intro n acc h; omega
  | succ f ih =>
    intro n acc h
    by_cases h10 : n < 10
    · have hrw := digitChar_toNat n h10
      simp only [natReprAux, if_pos h10, digitsToNat, List.length_cons, List.length_nil,
        Nat.zero_add, pow_one, hrw]
    · have hlt : n / 10 < n := Nat.div_lt_self (by omega) (by omega)
      have hd : n / 10 < f := by omega
      simp only [natReprAux, if_neg h10]
      rw [digitsToNat_append, ih (n / 10) acc hd]
      simp only [digitsToNat, digitChar_toNat (n % 10) (Nat.mod_lt _ (by omega)),
        List.length_append, List.length_cons, List.length_nil]
      rw [pow_succ, ← Nat.mul_assoc]
      generalize acc * 10 ^ (natReprAux f (n / 10)).length = A
      omega

theorem natRepr_inj (m n : Nat) (h : natRepr m = natRepr n) : m = n := by
  have h1 := natReprAux_spec (m + 1) m 0 (by omega)
  have h2 := natReprAux_spec (n + 1) n 0 (by omega)
  simp only [Nat.zero_mul, Nat.zero_add] at h1 h2
  unfold natRepr at h
  injection h with hd
  rw [← h1, ← h2, hd]

theorem mkLabel_inj (m n : Nat) (h : mkLabel m = mkLabel n) : m = n := by
  apply natRepr_inj
  unfold mkLabel at h
  have hd : ("label" ++ natRepr m).data = ("label" ++ natRepr n).data := by rw [h]
  simp only [String.data_append] at hd
  have hd2 := List.append_cancel_left hd
  apply String.ext  -- maybe wrong name
  exact hd2

theorem mkLabel_ne (m n : Nat) (h : m ≠ n) : mkLabel m ≠ mkLabel n :=
  fun he => h (mkLabel_inj m n he)

theorem afterLabelL_nil (l : String) : afterLabelL l [] = [] := rfl

theorem afterLabelL_here (l : String) (ys : List AsmLine) :
    afterLabelL l (AsmLine.labelL l :: ys) = ys := by
  simp [afterLabelL, afterLabel]

theorem afterLabelL_skip (l : String) (xs ys : List AsmLine)
    (h : ∀ l2, AsmLine.labelL l2 ∈ xs → l2 ≠ l) :
    afterLabelL l (xs ++ ys) = afterLabelL l ys := by
  induction xs with
  | nil => rfl
  | cons x xs ih =>
    have hx : ∀ l2, AsmLine.labelL l2 ∈ xs → l2 ≠ l :=
      fun l2 hm => h l2 (List.mem_cons_of_mem _ hm)
    have step : afterLabelL l (x :: (xs ++ ys)) = afterLabelL l (xs ++ ys) := by
      cases x
      case labelL l2 =>
        have hne : l2 ≠ l := h l2 (List.mem_cons_self _ _)
        simp [afterLabelL, afterLabel, hne]
      all_goals simp [afterLabelL, afterLabel]
    calc afterLabelL l ((x :: xs) ++ ys) = afterLabelL l (x :: (xs ++ ys)) := by
          rw [List.cons_append]
      _ = afterLabelL l (xs ++ ys) := step
      _ = afterLabelL l ys := ih hx

theorem execJ_movRax (v : String) (tl : List AsmLine) (m : MState) :
    execJ (AsmLine.movRax v :: tl) m = execJ tl { m with rax := readImm v } := by
  simp [execJ]

theorem execJ_pushRax (tl : List AsmLine) (m : MState) :
    execJ (AsmLine.pushRax :: tl) m = execJ tl { m with stack := m.rax :: m.stack } := by
  simp [execJ]

theorem execJ_popRax (v : Nat) (s : List Nat) (tl : List AsmLine) (m : MState)
    (h : m.stack = v :: s) :
    execJ (AsmLine.popR Reg.rax :: tl) m = execJ tl { m with rax := v, stack := s } := by
  simp [execJ, h, setReg]

theorem execJ_popRbx (v : Nat) (s : List Nat) (tl : List AsmLine) (m : MState)
    (h : m.stack = v :: s) :
    execJ (AsmLine.popR Reg.rbx :: tl) m = execJ tl { m with rbx := v, stack := s } := by
  simp [execJ, h, setReg]

theorem execJ_addRaxRbx (tl : List AsmLine) (m : MState) :
    execJ (AsmLine.addRaxRbx :: tl) m = execJ tl { m with rax := (m.rax + m.rbx) % w64 } := by
  simp [execJ]

theorem execJ_subRaxRbx (tl : List AsmLine) (m : MState) :
    execJ (AsmLine.subRaxRbx :: tl) m =
      execJ tl { m with rax := (m.rax + w64 - m.rbx) % w64 } := by
  simp [execJ]

theorem execJ_mulRbx (tl : List AsmLine) (m : MState) :
    execJ (AsmLine.mulRbx :: tl) m =
      execJ tl { m with rax := m.rax * m.rbx % w64, rdx := m.rax * m.rbx / w64 } := by
  simp [execJ]

theorem execJ_cmpRaxRbx (tl : List AsmLine) (m : MState) :
    execJ (AsmLine.cmpRaxRbx :: tl) m = execJ tl { m with zf := m.rax = m.rbx } := by
  simp [execJ]

theorem execJ_cmpRaxZero (tl : List AsmLine) (m : MState) :
    execJ (AsmLine.cmpRaxZero :: tl) m = execJ tl { m with zf := m.rax = 0 } := by
  simp [execJ]

theorem execJ_seteAl (tl : List AsmLine) (m : MState) :
    execJ (AsmLine.seteAl :: tl) m =
      execJ tl { m with rax := m.rax / 256 * 256 + (if m.zf then 1 else 0) } := by
  simp [execJ]

theorem execJ_movzxRaxAl (tl : List AsmLine) (m : MState) :
    execJ (AsmLine.movzxRaxAl :: tl) m = execJ tl { m with rax := m.rax % 256 } := by
  simp [execJ]

theorem execJ_labelL (l : String) (tl : List AsmLine) (m : MState) :
    execJ (AsmLine.labelL l :: tl) m = execJ tl m := by
  simp [execJ]

theorem execJ_jmpL (l : String) (tl : List AsmLine) (m : MState) :
    execJ (AsmLine.jmpL l :: tl) m = execJ (afterLabelL l tl) m := by
  simp [execJ]

theorem execJ_jeL_true (l : String) (tl : List AsmLine) (m : MState) (h : m.zf = true) :
    execJ (AsmLine.jeL l :: tl) m = execJ (afterLabelL l tl) m := by
  simp [execJ, h]

theorem execJ_jeL_false (l : String) (tl : List AsmLine) (m : MState) (h : m.zf = false) :
    execJ (AsmLine.jeL l :: tl) m = execJ tl m := by
  simp [execJ, h]

theorem execJ_jneL_true (l : String) (tl : List AsmLine) (m : MState) (h : m.zf = true) :
    execJ (AsmLine.jneL l :: tl) m = execJ tl m := by
  simp [execJ, h]

theorem execJ_jneL_false (l : String) (tl : List AsmLine) (m : MState) (h : m.zf = false) :
    execJ (AsmLine.jneL l :: tl) m = execJ (afterLabelL l tl) m := by
  simp [execJ, h]

theorem m_output_emitG (l : AsmLine) (st : GenState) :
    (emitG l st).m_output = st.m_output ++ [l] := rfl

theorem m_output_emitsG (ls : List AsmLine) (st : GenState) :
    (emitsG ls st).m_output = st.m_output ++ ls := rfl

theorem m_output_pushRaxG (st : GenState) :
    (pushRaxG st).m_output = st.m_output ++ [AsmLine.pushRax] := rfl

theorem m_output_popG (r : Reg) (st : GenState) :
    (popG r st).m_output = st.m_output ++ [AsmLine.popR r] := rfl

theorem m_output_createLabel (st : GenState) :
    (createLabel st).2.m_output = st.m_output := rfl

theorem m_label_count_emitG (l : AsmLine) (st : GenState) :
    (emitG l st).m_label_count = st.m_label_count := rfl

theorem m_label_count_emitsG (ls : List AsmLine) (st : GenState) :
    (emitsG ls st).m_label_count = st.m_label_count := rfl

theorem m_label_count_pushRaxG (st : GenState) :
    (pushRaxG st).m_label_count = st.m_label_count := rfl

theorem m_label_count_popG (r : Reg) (st : GenState) :
    (popG r st).m_label_count = st.m_label_count := rfl

theorem m_label_count_createLabel (st : GenState) :
    (createLabel st).2.m_label_count = st.m_label_count + 1 := rfl

theorem createLabel_fst (st : GenState) :
    (createLabel st).1 = mkLabel st.m_label_count := rfl

theorem readImm_zero : readImm "0" = 0 := rfl

theorem readImm_one : readImm "1" = 1 := rfl

theorem execJ_cmpSeq (tl : List AsmLine) (m : MState) :
    execJ (AsmLine.cmpRaxRbx :: AsmLine.seteAl :: AsmLine.movzxRaxAl :: AsmLine.pushRax ::
      tl) m =
      execJ tl { m with
        rax := if m.rax = m.rbx then 1 else 0
        zf := m.rax = m.rbx
        stack := (if m.rax = m.rbx then 1 else 0) :: m.stack } := by
  by_cases hp : m.rax = m.rbx
  · have h1 : (m.rbx / 256 * 256 + 1) % 256 = 1 := by omega
    simp [execJ, hp, h1]
  · have h0a : (m.rax / 256 * 256 + 0) % 256 = 0 := by omega
    have h0b : m.rax / 256 * 256 % 256 = 0 := by omega
    simp [execJ, hp, h0a, h0b]


theorem execJ_checkJe_zero (lf : String) (tl : List AsmLine) (m : MState) (v : Nat)
    (s : List Nat) (h : m.stack = v :: s) (hv : v = 0) :
    execJ (AsmLine.popR Reg.rax :: AsmLine.cmpRaxZero :: AsmLine.jeL lf :: tl) m =
      execJ (afterLabelL lf tl) { m with rax := v, zf := true, stack := s } := by
  subst hv
  simp [execJ, h, setReg]

theorem execJ_checkJe_pos (lf : String) (tl : List AsmLine) (m : MState) (v : Nat)
    (s : List Nat) (h : m.stack = v :: s) (hv : v ≠ 0) :
    execJ (AsmLine.popR Reg.rax :: AsmLine.cmpRaxZero :: AsmLine.jeL lf :: tl) m =
      execJ tl { m with rax := v, zf := false, stack := s } := by
  simp [execJ, h, setReg, hv]

theorem execJ_checkJne_zero (lf : String) (tl : List AsmLine) (m : MState) (v : Nat)
    (s : List Nat) (h : m.stack = v :: s) (hv : v = 0) :
    execJ (AsmLine.popR Reg.rax :: AsmLine.cmpRaxZero :: AsmLine.jneL lf :: tl) m =
      execJ tl { m with rax := v, zf := true, stack := s } := by
  subst hv
  simp [execJ, h, setReg]

theorem execJ_checkJne_pos (lf : String) (tl : List AsmLine) (m : MState) (v : Nat)
    (s : List Nat) (h : m.stack = v :: s) (hv : v ≠ 0) :
    execJ (AsmLine.popR Reg.rax :: AsmLine.cmpRaxZero :: AsmLine.jneL lf :: tl) m =
      execJ (afterLabelL lf tl) { m with rax := v, zf := false, stack := s } := by
  simp [execJ, h, setReg, hv]

theorem execJ_movPush_zero (le : String) (rest : List AsmLine) (m : MState) :
    execJ (AsmLine.movRax "0" :: AsmLine.labelL le :: AsmLine.pushRax :: rest) m =
      execJ rest { m with rax := 0, stack := 0 :: m.stack } := by
  simp [execJ, readImm_zero]

theorem execJ_movPush_one (le : String) (rest : List AsmLine) (m : MState) :
    execJ (AsmLine.movRax "1" :: AsmLine.labelL le :: AsmLine.pushRax :: rest) m =
      execJ rest { m with rax := 1, stack := 1 :: m.stack } := by
  simp [execJ, readImm_one]

theorem execJ_andTrueTail (lf le : String) (hne : lf ≠ le) (rest : List AsmLine) (m : MState) :
    execJ (AsmLine.movRax "1" :: AsmLine.jmpL le :: AsmLine.labelL lf :: AsmLine.movRax "0" ::
      AsmLine.labelL le :: AsmLine.pushRax :: rest) m =
      execJ rest { m with rax := 1, stack := 1 :: m.stack } := by
  simp [execJ, readImm_one, afterLabelL, afterLabel, hne]

theorem execJ_orFalseTail (lf le : String) (hne : lf ≠ le) (rest : List AsmLine) (m : MState) :
    execJ (AsmLine.movRax "0" :: AsmLine.jmpL le :: AsmLine.labelL lf :: AsmLine.movRax "1" ::
      AsmLine.labelL le :: AsmLine.pushRax :: rest) m =
      execJ rest { m with rax := 0, stack := 0 :: m.stack } := by
  simp [execJ, readImm_zero, afterLabelL, afterLabel, hne]


theorem genValueAux (f : Nat) :
    (∀ e st s2, valFragE e = true → genExpr f e st = Except.ok s2 →
      GoodSlice st s2 (evalExprV e)) ∧
    (∀ t st s2, valFragT t = true → genTerm f t st = Except.ok s2 →
      GoodSlice st s2 (evalTermV t)) ∧
    (∀ b st s2, valFragB b = true → genBinExpr f b st = Except.ok s2 →
      GoodSlice st s2 (evalBinV b)) := by
  induction f with
  | zero =>
    refine ⟨?_, ?_, ?_⟩
    · intro e st s2 _ h; simp [genExpr] at h
    · intro t st s2 _ h; simp [genTerm] at h
    · intro b st s2 _ h; simp [genBinExpr] at h
  | succ f ih =>
    obtain ⟨ihE, ihT, ihB⟩ := ih
    refine ⟨?_, ?_, ?_⟩
    · intro e st s2 hnc h
      cases e with
      | term t =>
        have hv : evalExprV (NodeExpr.term t) = evalTermV t := by simp [evalExprV]
        rw [hv]
        simp only [genExpr] at h
        exact ihT t st s2 (by simpa [valFragE] using hnc) h
      | binE b =>
        have hv : evalExprV (NodeExpr.binE b) = evalBinV b := by simp [evalExprV]
        rw [hv]
        simp only [genExpr] at h
        exact ihB b st s2 (by simpa [valFragE] using hnc) h
      | funcCallE fc => simp [valFragE] at hnc
    · intro t st s2 hnc h
      cases t with
      | intLitT tok =>
        cases hvtok : tok.value with
        | none => simp [valFragT, hvtok] at hnc
        | some v =>
          have ht : tokValue tok = Except.ok v := by simp [tokValue, hvtok]
          simp only [genTerm, ht] at h
          injection h with h2
          subst h2
          have hv : evalTermV (NodeTerm.intLitT tok) = readImm v := by
            simp [evalTermV, hvtok]
          rw [hv]
          unfold GoodSlice
          refine ⟨le_refl _, [AsmLine.movRax v, AsmLine.pushRax], ?_, ?_, ?_⟩
          · simp [m_output_pushRaxG, m_output_emitG]
          · intro lb hl; simp at hl
          · intro rest m
            refine ⟨{ m with rax := readImm v, stack := readImm v :: m.stack }, ?_, rfl⟩
            calc execJ ([AsmLine.movRax v, AsmLine.pushRax] ++ rest) m
                = execJ (AsmLine.pushRax :: rest) { m with rax := readImm v } := by
                  simp only [List.cons_append, List.nil_append]
                  exact execJ_movRax _ _ _
              _ = execJ rest { m with rax := readImm v, stack := readImm v :: m.stack } :=
                  execJ_pushRax _ _
      | boolLitT b =>
        simp only [genTerm] at h
        injection h with h2
        subst h2
        cases b with
        | true =>
          have hv : evalTermV (NodeTerm.boolLitT true) = 1 := by simp [evalTermV]
          rw [hv]
          unfold GoodSlice
          refine ⟨le_refl _, [AsmLine.movRax "1", AsmLine.pushRax], ?_, ?_, ?_⟩
          · simp [m_output_pushRaxG, m_output_emitG]
          · intro lb hl; simp at hl
          · intro rest m
            refine ⟨{ m with rax := 1, stack := 1 :: m.stack }, ?_, rfl⟩
            calc execJ ([AsmLine.movRax "1", AsmLine.pushRax] ++ rest) m
                = execJ (AsmLine.pushRax :: rest) { m with rax := 1 } := by
                  simp only [List.cons_append, List.nil_append]
                  rw [execJ_movRax, readImm_one]
              _ = execJ rest { m with rax := 1, stack := 1 :: m.stack } := execJ_pushRax _ _
        | false =>
          have hv : evalTermV (NodeTerm.boolLitT false) = 0 := by simp [evalTermV]
          rw [hv]
          unfold GoodSlice
          refine ⟨le_refl _, [AsmLine.movRax "0", AsmLine.pushRax], ?_, ?_, ?_⟩
          · simp [m_output_pushRaxG, m_output_emitG]
          · intro lb hl; simp at hl
          · intro rest m
            refine ⟨{ m with rax := 0, stack := 0 :: m.stack }, ?_, rfl⟩
            calc execJ ([AsmLine.movRax "0", AsmLine.pushRax] ++ rest) m
                = execJ (AsmLine.pushRax :: rest) { m with rax := 0 } := by
                  simp only [List.cons_append, List.nil_append]
                  rw [execJ_movRax, readImm_zero]
              _ = execJ rest { m with rax := 0, stack := 0 :: m.stack } := execJ_pushRax _ _
      | identT tok => simp [valFragT] at hnc
      | parenT e =>
        have hv : evalTermV (NodeTerm.parenT e) = evalExprV e := by simp [evalTermV]
        rw [hv]
        simp only [genTerm] at h
        exact ihE e st s2 (by simpa [valFragT] using hnc) h
      | stringLitT v => simp [valFragT] at hnc
      | funcDefT fd => simp [valFragT] at hnc
    · intro b st s2 hnc h
      cases b with
      | addE l r =>
        simp only [valFragB, Bool.and_eq_true] at hnc
        simp only [genBinExpr] at h
        split at h
        · simp at h
        next s1 heq =>
          split at h
          · simp at h
          next s3 heq2 =>
            injection h with h2
            subst h2
            have hv : evalBinV (NodeBinExpr.addE l r) =
                (evalExprV l + evalExprV r) % w64 := by simp [evalBinV]
            rw [hv]
            obtain ⟨hle1, sl_r, ho1, hlab1, hex1⟩ := ihE r st s1 hnc.2 heq
            obtain ⟨hle2, sl_l, ho2, hlab2, hex2⟩ := ihE l s1 s3 hnc.1 heq2
            unfold GoodSlice
            refine ⟨?_, sl_r ++ sl_l ++ [AsmLine.popR Reg.rax, AsmLine.popR Reg.rbx,
              AsmLine.addRaxRbx, AsmLine.pushRax], ?_, ?_, ?_⟩
            · simp only [m_label_count_pushRaxG, m_label_count_emitG, m_label_count_popG]
              omega
            · simp [m_output_pushRaxG, m_output_emitG, m_output_popG, ho2, ho1,
                List.append_assoc]
            · intro lb hl
              simp only [m_label_count_pushRaxG, m_label_count_emitG, m_label_count_popG]
              simp only [List.mem_append, List.mem_cons, List.not_mem_nil, or_false] at hl
              rcases hl with (hl | hl) | hl | hl | hl | hl
              · obtain ⟨k, hk1, hk2, hk3⟩ := hlab1 lb hl
                exact ⟨k, hk1, by omega, hk3⟩
              · obtain ⟨k, hk1, hk2, hk3⟩ := hlab2 lb hl
                exact ⟨k, by omega, by omega, hk3⟩
              all_goals simp at hl
            · intro rest m
              obtain ⟨m1, he1, hs1⟩ := hex1 (sl_l ++ [AsmLine.popR Reg.rax, AsmLine.popR Reg.rbx,
                AsmLine.addRaxRbx, AsmLine.pushRax] ++ rest) m
              obtain ⟨m2, he2, hs2⟩ := hex2 ([AsmLine.popR Reg.rax, AsmLine.popR Reg.rbx,
                AsmLine.addRaxRbx, AsmLine.pushRax] ++ rest) m1
              have hm2 : m2.stack = evalExprV l :: evalExprV r :: m.stack := by rw [hs2, hs1]
              refine ⟨{ m2 with
                rax := (evalExprV l + evalExprV r) % w64
                rbx := evalExprV r
                stack := ((evalExprV l + evalExprV r) % w64) :: m.stack }, ?_, rfl⟩
              calc execJ ((sl_r ++ sl_l ++ [AsmLine.popR Reg.rax, AsmLine.popR Reg.rbx,
                    AsmLine.addRaxRbx, AsmLine.pushRax]) ++ rest) m
                  = execJ (sl_l ++ [AsmLine.popR Reg.rax, AsmLine.popR Reg.rbx,
                    AsmLine.addRaxRbx, AsmLine.pushRax] ++ rest) m1 := by
                    rw [← he1]; simp [List.append_assoc]
                _ = execJ ([AsmLine.popR Reg.rax, AsmLine.popR Reg.rbx,
                    AsmLine.addRaxRbx, AsmLine.pushRax] ++ rest) m2 := by
                    rw [List.append_assoc]; exact he2
                _ = execJ (AsmLine.popR Reg.rbx :: AsmLine.addRaxRbx :: AsmLine.pushRax :: rest)
                    { m2 with
                      rax := evalExprV l
                      stack := evalExprV r :: m.stack } := by
                    simp only [List.cons_append, List.nil_append]
                    exact execJ_popRax _ _ _ _ hm2
                _ = execJ (AsmLine.addRaxRbx :: AsmLine.pushRax :: rest)
                    { m2 with
                      rax := evalExprV l
                      rbx := evalExprV r
                      stack := m.stack } :=
                    execJ_popRbx _ _ _ _ rfl
                _ = execJ (AsmLine.pushRax :: rest)
                    { m2 with
                      rax := (evalExprV l + evalExprV r) % w64
                      rbx := evalExprV r
                      stack := m.stack } := execJ_addRaxRbx _ _
                _ = execJ rest
                    { m2 with
                      rax := (evalExprV l + evalExprV r) % w64
                      rbx := evalExprV r
                      stack := ((evalExprV l + evalExprV r) % w64) :: m.stack } :=
                    execJ_pushRax _ _
      | subE l r =>
        simp only [valFragB, Bool.and_eq_true] at hnc
        simp only [genBinExpr] at h
        split at h
        · simp at h
        next s1 heq =>
          split at h
          · simp at h
          next s3 heq2 =>
            injection h with h2
            subst h2
            have hv : evalBinV (NodeBinExpr.subE l r) =
                (evalExprV l + w64 - evalExprV r) % w64 := by simp [evalBinV]
            rw [hv]
            obtain ⟨hle1, sl_r, ho1, hlab1, hex1⟩ := ihE r st s1 hnc.2 heq
            obtain ⟨hle2, sl_l, ho2, hlab2, hex2⟩ := ihE l s1 s3 hnc.1 heq2
            unfold GoodSlice
            refine ⟨?_, sl_r ++ sl_l ++ [AsmLine.popR Reg.rax, AsmLine.popR Reg.rbx,
              AsmLine.subRaxRbx, AsmLine.pushRax], ?_, ?_, ?_⟩
            · simp only [m_label_count_pushRaxG, m_label_count_emitG, m_label_count_popG]
              omega
            · simp [m_output_pushRaxG, m_output_emitG, m_output_popG, ho2, ho1,
                List.append_assoc]
            · intro lb hl
              simp only [m_label_count_pushRaxG, m_label_count_emitG, m_label_count_popG]
              simp only [List.mem_append, List.mem_cons, List.not_mem_nil, or_false] at hl
              rcases hl with (hl | hl) | hl | hl | hl | hl
              · obtain ⟨k, hk1, hk2, hk3⟩ := hlab1 lb hl
                exact ⟨k, hk1, by omega, hk3⟩
              · obtain ⟨k, hk1, hk2, hk3⟩ := hlab2 lb hl
                exact ⟨k, by omega, by omega, hk3⟩
              all_goals simp at hl
            · intro rest m
              obtain ⟨m1, he1, hs1⟩ := hex1 (sl_l ++ [AsmLine.popR Reg.rax, AsmLine.popR Reg.rbx,
                AsmLine.subRaxRbx, AsmLine.pushRax] ++ rest) m
              obtain ⟨m2, he2, hs2⟩ := hex2 ([AsmLine.popR Reg.rax, AsmLine.popR Reg.rbx,
                AsmLine.subRaxRbx, AsmLine.pushRax] ++ rest) m1
              have hm2 : m2.stack = evalExprV l :: evalExprV r :: m.stack := by rw [hs2, hs1]
              refine ⟨{ m2 with
                rax := (evalExprV l + w64 - evalExprV r) % w64
                rbx := evalExprV r
                stack := ((evalExprV l + w64 - evalExprV r) % w64) :: m.stack }, ?_, rfl⟩
              calc execJ ((sl_r ++ sl_l ++ [AsmLine.popR Reg.rax, AsmLine.popR Reg.rbx,
                    AsmLine.subRaxRbx, AsmLine.pushRax]) ++ rest) m
                  = execJ (sl_l ++ [AsmLine.popR Reg.rax, AsmLine.popR Reg.rbx,
                    AsmLine.subRaxRbx, AsmLine.pushRax] ++ rest) m1 := by
                    rw [← he1]; simp [List.append_assoc]
                _ = execJ ([AsmLine.popR Reg.rax, AsmLine.popR Reg.rbx,
                    AsmLine.subRaxRbx, AsmLine.pushRax] ++ rest) m2 := by
                    rw [List.append_assoc]; exact he2
                _ = execJ (AsmLine.popR Reg.rbx :: AsmLine.subRaxRbx :: AsmLine.pushRax :: rest)
                    { m2 with
                      rax := evalExprV l
                      stack := evalExprV r :: m.stack } := by
                    simp only [List.cons_append, List.nil_append]
                    exact execJ_popRax _ _ _ _ hm2
                _ = execJ (AsmLine.subRaxRbx :: AsmLine.pushRax :: rest)
                    { m2 with
                      rax := evalExprV l
                      rbx := evalExprV r
                      stack := m.stack } :=
                    execJ_popRbx _ _ _ _ rfl
                _ = execJ (AsmLine.pushRax :: rest)
                    { m2 with
                      rax := (evalExprV l + w64 - evalExprV r) % w64
                      rbx := evalExprV r
                      stack := m.stack } := execJ_subRaxRbx _ _
                _ = execJ rest
                    { m2 with
                      rax := (evalExprV l + w64 - evalExprV r) % w64
                      rbx := evalExprV r
                      stack := ((evalExprV l + w64 - evalExprV r) % w64) :: m.stack } :=
                    execJ_pushRax _ _
      | multiE l r =>
        simp only [valFragB, Bool.and_eq_true] at hnc
        simp only [genBinExpr] at h
        split at h
        · simp at h
        next s1 heq =>
          split at h
          · simp at h
          next s3 heq2 =>
            injection h with h2
            subst h2
            have hv : evalBinV (NodeBinExpr.multiE l r) =
                evalExprV l * evalExprV r % w64 := by simp [evalBinV]
            rw [hv]
            obtain ⟨hle1, sl_r, ho1, hlab1, hex1⟩ := ihE r st s1 hnc.2 heq
            obtain ⟨hle2, sl_l, ho2, hlab2, hex2⟩ := ihE l s1 s3 hnc.1 heq2
            unfold GoodSlice
            refine ⟨?_, sl_r ++ sl_l ++ [AsmLine.popR Reg.rax, AsmLine.popR Reg.rbx,
              AsmLine.mulRbx, AsmLine.pushRax], ?_, ?_, ?_⟩
            · simp only [m_label_count_pushRaxG, m_label_count_emitG, m_label_count_popG]
              omega
            · simp [m_output_pushRaxG, m_output_emitG, m_output_popG, ho2, ho1,
                List.append_assoc]
            · intro lb hl
              simp only [m_label_count_pushRaxG, m_label_count_emitG, m_label_count_popG]
              simp only [List.mem_append, List.mem_cons, List.not_mem_nil, or_false] at hl
              rcases hl with (hl | hl) | hl | hl | hl | hl
              · obtain ⟨k, hk1, hk2, hk3⟩ := hlab1 lb hl
                exact ⟨k, hk1, by omega, hk3⟩
              · obtain ⟨k, hk1, hk2, hk3⟩ := hlab2 lb hl
                exact ⟨k, by omega, by omega, hk3⟩
              all_goals simp at hl
            · intro rest m
              obtain ⟨m1, he1, hs1⟩ := hex1 (sl_l ++ [AsmLine.popR Reg.rax, AsmLine.popR Reg.rbx,
                AsmLine.mulRbx, AsmLine.pushRax] ++ rest) m
              obtain ⟨m2, he2, hs2⟩ := hex2 ([AsmLine.popR Reg.rax, AsmLine.popR Reg.rbx,
                AsmLine.mulRbx, AsmLine.pushRax] ++ rest) m1
              have hm2 : m2.stack = evalExprV l :: evalExprV r :: m.stack := by rw [hs2, hs1]
              refine ⟨{ m2 with
                rax := evalExprV l * evalExprV r % w64
                rbx := evalExprV r
                rdx := evalExprV l * evalExprV r / w64
                stack := (evalExprV l * evalExprV r % w64) :: m.stack }, ?_, rfl⟩
              calc execJ ((sl_r ++ sl_l ++ [AsmLine.popR Reg.rax, AsmLine.popR Reg.rbx,
                    AsmLine.mulRbx, AsmLine.pushRax]) ++ rest) m
                  = execJ (sl_l ++ [AsmLine.popR Reg.rax, AsmLine.popR Reg.rbx,
                    AsmLine.mulRbx, AsmLine.pushRax] ++ rest) m1 := by
                    rw [← he1]; simp [List.append_assoc]
                _ = execJ ([AsmLine.popR Reg.rax, AsmLine.popR Reg.rbx,
                    AsmLine.mulRbx, AsmLine.pushRax] ++ rest) m2 := by
                    rw [List.append_assoc]; exact he2
                _ = execJ (AsmLine.popR Reg.rbx :: AsmLine.mulRbx :: AsmLine.pushRax :: rest)
                    { m2 with
                      rax := evalExprV l
                      stack := evalExprV r :: m.stack } := by
                    simp only [List.cons_append, List.nil_append]
                    exact execJ_popRax _ _ _ _ hm2
                _ = execJ (AsmLine.mulRbx :: AsmLine.pushRax :: rest)
                    { m2 with
                      rax := evalExprV l
                      rbx := evalExprV r
                      stack := m.stack } :=
                    execJ_popRbx _ _ _ _ rfl
                _ = execJ (AsmLine.pushRax :: rest)
                    { m2 with
                      rax := evalExprV l * evalExprV r % w64
                      rbx := evalExprV r
                      rdx := evalExprV l * evalExprV r / w64
                      stack := m.stack } := execJ_mulRbx _ _
                _ = execJ rest
                    { m2 with
                      rax := evalExprV l * evalExprV r % w64
                      rbx := evalExprV r
                      rdx := evalExprV l * evalExprV r / w64
                      stack := (evalExprV l * evalExprV r % w64) :: m.stack } :=
                    execJ_pushRax _ _
      | divE l r => simp [valFragB] at hnc
      | eqE l r =>
        simp only [valFragB, Bool.and_eq_true] at hnc
        simp only [genBinExpr] at h
        split at h
        · simp at h
        next s1 heq =>
          split at h
          · simp at h
          next s3 heq2 =>
            injection h with h2
            subst h2
            have hv : evalBinV (NodeBinExpr.eqE l r) =
                (if evalExprV l = evalExprV r then 1 else 0) := by simp [evalBinV]
            rw [hv]
            obtain ⟨hle1, sl_r, ho1, hlab1, hex1⟩ := ihE r st s1 hnc.2 heq
            obtain ⟨hle2, sl_l, ho2, hlab2, hex2⟩ := ihE l s1 s3 hnc.1 heq2
            unfold GoodSlice
            refine ⟨?_, sl_r ++ sl_l ++ [AsmLine.popR Reg.rax, AsmLine.popR Reg.rbx,
              AsmLine.cmpRaxRbx, AsmLine.seteAl, AsmLine.movzxRaxAl, AsmLine.pushRax],
              ?_, ?_, ?_⟩
            · simp only [m_label_count_pushRaxG, m_label_count_emitsG, m_label_count_popG]
              omega
            · simp [m_output_pushRaxG, m_output_emitsG, m_output_popG, ho2, ho1,
                List.append_assoc]
            · intro lb hl
              simp only [m_label_count_pushRaxG, m_label_count_emitsG, m_label_count_popG]
              simp only [List.mem_append, List.mem_cons, List.not_mem_nil, or_false] at hl
              rcases hl with (hl | hl) | hl | hl | hl | hl | hl | hl
              · obtain ⟨k, hk1, hk2, hk3⟩ := hlab1 lb hl
                exact ⟨k, hk1, by omega, hk3⟩
              · obtain ⟨k, hk1, hk2, hk3⟩ := hlab2 lb hl
                exact ⟨k, by omega, by omega, hk3⟩
              all_goals simp at hl
            · intro rest m
              obtain ⟨m1, he1, hs1⟩ := hex1 (sl_l ++ [AsmLine.popR Reg.rax, AsmLine.popR Reg.rbx,
                AsmLine.cmpRaxRbx, AsmLine.seteAl, AsmLine.movzxRaxAl, AsmLine.pushRax] ++
                rest) m
              obtain ⟨m2, he2, hs2⟩ := hex2 ([AsmLine.popR Reg.rax, AsmLine.popR Reg.rbx,
                AsmLine.cmpRaxRbx, AsmLine.seteAl, AsmLine.movzxRaxAl, AsmLine.pushRax] ++
                rest) m1
              have hm2 : m2.stack = evalExprV l :: evalExprV r :: m.stack := by rw [hs2, hs1]
              refine ⟨{ m2 with
                rax := if evalExprV l = evalExprV r then 1 else 0
                rbx := evalExprV r
                zf := evalExprV l = evalExprV r
                stack := (if evalExprV l = evalExprV r then 1 else 0) :: m.stack }, ?_, rfl⟩
              calc execJ ((sl_r ++ sl_l ++ [AsmLine.popR Reg.rax, AsmLine.popR Reg.rbx,
                    AsmLine.cmpRaxRbx, AsmLine.seteAl, AsmLine.movzxRaxAl,
                    AsmLine.pushRax]) ++ rest) m
                  = execJ (sl_l ++ [AsmLine.popR Reg.rax, AsmLine.popR Reg.rbx,
                    AsmLine.cmpRaxRbx, AsmLine.seteAl, AsmLine.movzxRaxAl,
                    AsmLine.pushRax] ++ rest) m1 := by
                    rw [← he1]; simp [List.append_assoc]
                _ = execJ ([AsmLine.popR Reg.rax, AsmLine.popR Reg.rbx,
                    AsmLine.cmpRaxRbx, AsmLine.seteAl, AsmLine.movzxRaxAl,
                    AsmLine.pushRax] ++ rest) m2 := by
                    rw [List.append_assoc]; exact he2
                _ = execJ (AsmLine.popR Reg.rbx :: AsmLine.cmpRaxRbx :: AsmLine.seteAl ::
                    AsmLine.movzxRaxAl :: AsmLine.pushRax :: rest)
                    { m2 with
                      rax := evalExprV l
                      stack := evalExprV r :: m.stack } := by
                    simp only [List.cons_append, List.nil_append]
                    exact execJ_popRax _ _ _ _ hm2
                _ = execJ (AsmLine.cmpRaxRbx :: AsmLine.seteAl :: AsmLine.movzxRaxAl ::
                    AsmLine.pushRax :: rest)
                    { m2 with
                      rax := evalExprV l
                      rbx := evalExprV r
                      stack := m.stack } :=
                    execJ_popRbx _ _ _ _ rfl
                _ = execJ rest
                    { m2 with
                      rax := if evalExprV l = evalExprV r then 1 else 0
                      rbx := evalExprV r
                      zf := evalExprV l = evalExprV r
                      stack := (if evalExprV l = evalExprV r then 1 else 0) :: m.stack } :=
                    execJ_cmpSeq _ _
      | andE l r =>
        simp only [valFragB, Bool.and_eq_true] at hnc
        simp only [genBinExpr] at h
        split at h
        · simp at h
        next s3 heq =>
          split at h
          · simp at h
          next s5 heq2 =>
            simp only [createLabel_fst, m_label_count_createLabel] at h heq2
            injection h with h2
            subst h2
            have hv : evalBinV (NodeBinExpr.andE l r) =
                (if evalExprV l = 0 then 0 else if evalExprV r = 0 then 0 else 1) := by
              simp [evalBinV]
            rw [hv]
            obtain ⟨hle_l, sl_l, ho_l, hlab_l, hex_l⟩ := ihE l _ s3 hnc.1 heq
            obtain ⟨hle_r, sl_r, ho_r, hlab_r, hex_r⟩ := ihE r _ s5 hnc.2 heq2
            simp only [m_label_count_createLabel, m_output_createLabel] at hle_l ho_l hlab_l
            simp only [m_label_count_emitsG, m_label_count_popG, m_output_emitsG,
              m_output_popG] at hle_r ho_r hlab_r
            have hneq : mkLabel st.m_label_count ≠ mkLabel (st.m_label_count + 1) :=
              mkLabel_ne _ _ (by omega)
            unfold GoodSlice
            refine ⟨?_, sl_l ++ ([AsmLine.popR Reg.rax, AsmLine.cmpRaxZero,
              AsmLine.jeL (mkLabel st.m_label_count)] ++ (sl_r ++ ([AsmLine.popR Reg.rax,
              AsmLine.cmpRaxZero, AsmLine.jeL (mkLabel st.m_label_count)] ++
              [AsmLine.movRax "1", AsmLine.jmpL (mkLabel (st.m_label_count + 1)),
              AsmLine.labelL (mkLabel st.m_label_count), AsmLine.movRax "0",
              AsmLine.labelL (mkLabel (st.m_label_count + 1)), AsmLine.pushRax]))),
              ?_, ?_, ?_⟩
            · simp only [m_label_count_pushRaxG, m_label_count_emitsG, m_label_count_popG]
              omega
            · simp [m_output_pushRaxG, m_output_emitsG, m_output_popG, ho_r, ho_l,
                List.append_assoc]
            · intro lb hl
              simp only [m_label_count_pushRaxG, m_label_count_emitsG, m_label_count_popG]
              simp at hl
              rcases hl with hl | hl | hl | hl
              · obtain ⟨k, hk1, hk2, hk3⟩ := hlab_l lb hl
                exact ⟨k, by omega, by omega, hk3⟩
              · obtain ⟨k, hk1, hk2, hk3⟩ := hlab_r lb hl
                exact ⟨k, by omega, by omega, hk3⟩
              · exact ⟨st.m_label_count, by omega, by omega, hl⟩
              · exact ⟨st.m_label_count + 1, by omega, by omega, hl⟩
            · intro rest m
              obtain ⟨m1, he1, hs1⟩ := hex_l (AsmLine.popR Reg.rax :: AsmLine.cmpRaxZero ::
                AsmLine.jeL (mkLabel st.m_label_count) :: (sl_r ++ (AsmLine.popR Reg.rax ::
                AsmLine.cmpRaxZero :: AsmLine.jeL (mkLabel st.m_label_count) ::
                AsmLine.movRax "1" :: AsmLine.jmpL (mkLabel (st.m_label_count + 1)) ::
                AsmLine.labelL (mkLabel st.m_label_count) :: AsmLine.movRax "0" ::
                AsmLine.labelL (mkLabel (st.m_label_count + 1)) :: AsmLine.pushRax ::
                rest))) m
              have hfr : ∀ l2, AsmLine.labelL l2 ∈ sl_r ++ [AsmLine.popR Reg.rax,
                  AsmLine.cmpRaxZero, AsmLine.jeL (mkLabel st.m_label_count),
                  AsmLine.movRax "1", AsmLine.jmpL (mkLabel (st.m_label_count + 1))] →
                  l2 ≠ mkLabel st.m_label_count := by
                intro l2 hm
                rcases List.mem_append.1 hm with hm | hm
                · obtain ⟨k, hk1, hk2, hk3⟩ := hlab_r l2 hm
                  subst hk3
                  exact mkLabel_ne k st.m_label_count (by omega)
                · simp at hm
              have hres : afterLabelL (mkLabel st.m_label_count) (sl_r ++
                  (AsmLine.popR Reg.rax :: AsmLine.cmpRaxZero ::
                  AsmLine.jeL (mkLabel st.m_label_count) :: AsmLine.movRax "1" ::
                  AsmLine.jmpL (mkLabel (st.m_label_count + 1)) ::
                  AsmLine.labelL (mkLabel st.m_label_count) :: AsmLine.movRax "0" ::
                  AsmLine.labelL (mkLabel (st.m_label_count + 1)) :: AsmLine.pushRax ::
                  rest)) = AsmLine.movRax "0" ::
                  AsmLine.labelL (mkLabel (st.m_label_count + 1)) :: AsmLine.pushRax ::
                  rest := by
                rw [show (sl_r ++ (AsmLine.popR Reg.rax :: AsmLine.cmpRaxZero ::
                  AsmLine.jeL (mkLabel st.m_label_count) :: AsmLine.movRax "1" ::
                  AsmLine.jmpL (mkLabel (st.m_label_count + 1)) ::
                  AsmLine.labelL (mkLabel st.m_label_count) :: AsmLine.movRax "0" ::
                  AsmLine.labelL (mkLabel (st.m_label_count + 1)) :: AsmLine.pushRax ::
                  rest) : List AsmLine) = (sl_r ++ [AsmLine.popR Reg.rax,
                  AsmLine.cmpRaxZero, AsmLine.jeL (mkLabel st.m_label_count),
                  AsmLine.movRax "1", AsmLine.jmpL (mkLabel (st.m_label_count + 1))]) ++
                  (AsmLine.labelL (mkLabel st.m_label_count) :: AsmLine.movRax "0" ::
                  AsmLine.labelL (mkLabel (st.m_label_count + 1)) :: AsmLine.pushRax ::
                  rest) from by simp]
                rw [afterLabelL_skip _ _ _ hfr, afterLabelL_here]
              by_cases hvl : evalExprV l = 0
              · refine ⟨{ m1 with rax := 0, zf := true, stack := 0 :: m.stack }, ?_,
                  by simp [hvl]⟩
                calc execJ ((sl_l ++ ([AsmLine.popR Reg.rax, AsmLine.cmpRaxZero,
                      AsmLine.jeL (mkLabel st.m_label_count)] ++ (sl_r ++
                      ([AsmLine.popR Reg.rax, AsmLine.cmpRaxZero,
                      AsmLine.jeL (mkLabel st.m_label_count)] ++
                      [AsmLine.movRax "1", AsmLine.jmpL (mkLabel (st.m_label_count + 1)),
                      AsmLine.labelL (mkLabel st.m_label_count), AsmLine.movRax "0",
                      AsmLine.labelL (mkLabel (st.m_label_count + 1)),
                      AsmLine.pushRax])))) ++ rest) m
                    = execJ (sl_l ++ (AsmLine.popR Reg.rax :: AsmLine.cmpRaxZero ::
                      AsmLine.jeL (mkLabel st.m_label_count) :: (sl_r ++
                      (AsmLine.popR Reg.rax :: AsmLine.cmpRaxZero ::
                      AsmLine.jeL (mkLabel st.m_label_count) :: AsmLine.movRax "1" ::
                      AsmLine.jmpL (mkLabel (st.m_label_count + 1)) ::
                      AsmLine.labelL (mkLabel st.m_label_count) :: AsmLine.movRax "0" ::
                      AsmLine.labelL (mkLabel (st.m_label_count + 1)) ::
                      AsmLine.pushRax :: rest)))) m := by
                      simp [List.append_assoc]
                  _ = execJ (AsmLine.popR Reg.rax :: AsmLine.cmpRaxZero ::
                      AsmLine.jeL (mkLabel st.m_label_count) :: (sl_r ++
                      (AsmLine.popR Reg.rax :: AsmLine.cmpRaxZero ::
                      AsmLine.jeL (mkLabel st.m_label_count) :: AsmLine.movRax "1" ::
                      AsmLine.jmpL (mkLabel (st.m_label_count + 1)) ::
                      AsmLine.labelL (mkLabel st.m_label_count) :: AsmLine.movRax "0" ::
                      AsmLine.labelL (mkLabel (st.m_label_count + 1)) ::
                      AsmLine.pushRax :: rest))) m1 := he1
                  _ = execJ (afterLabelL (mkLabel st.m_label_count) (sl_r ++
                      (AsmLine.popR Reg.rax :: AsmLine.cmpRaxZero ::
                      AsmLine.jeL (mkLabel st.m_label_count) :: AsmLine.movRax "1" ::
                      AsmLine.jmpL (mkLabel (st.m_label_count + 1)) ::
                      AsmLine.labelL (mkLabel st.m_label_count) :: AsmLine.movRax "0" ::
                      AsmLine.labelL (mkLabel (st.m_label_count + 1)) ::
                      AsmLine.pushRax :: rest)))
                      { m1 with
                        rax := evalExprV l
                        zf := true
                        stack := m.stack } :=
                      execJ_checkJe_zero _ _ _ _ _ hs1 hvl
                  _ = execJ (AsmLine.movRax "0" ::
                      AsmLine.labelL (mkLabel (st.m_label_count + 1)) :: AsmLine.pushRax ::
                      rest)
                      { m1 with
                        rax := evalExprV l
                        zf := true
                        stack := m.stack } := by rw [hres]
                  _ = execJ rest { m1 with rax := 0, zf := true, stack := 0 :: m.stack } :=
                      execJ_movPush_zero _ _ _
              · obtain ⟨m3, he3, hs3⟩ := hex_r (AsmLine.popR Reg.rax :: AsmLine.cmpRaxZero ::
                  AsmLine.jeL (mkLabel st.m_label_count) :: AsmLine.movRax "1" ::
                  AsmLine.jmpL (mkLabel (st.m_label_count + 1)) ::
                  AsmLine.labelL (mkLabel st.m_label_count) :: AsmLine.movRax "0" ::
                  AsmLine.labelL (mkLabel (st.m_label_count + 1)) :: AsmLine.pushRax ::
                  rest)
                  { m1 with
                    rax := evalExprV l
                    zf := false
                    stack := m.stack }
                have hs3' : m3.stack = evalExprV r :: m.stack := hs3
                by_cases hvr : evalExprV r = 0
                · refine ⟨{ m3 with rax := 0, zf := true, stack := 0 :: m.stack }, ?_,
                    by simp [hvl, hvr]⟩
                  calc execJ ((sl_l ++ ([AsmLine.popR Reg.rax, AsmLine.cmpRaxZero,
                        AsmLine.jeL (mkLabel st.m_label_count)] ++ (sl_r ++
                        ([AsmLine.popR Reg.rax, AsmLine.cmpRaxZero,
                        AsmLine.jeL (mkLabel st.m_label_count)] ++
                        [AsmLine.movRax "1", AsmLine.jmpL (mkLabel (st.m_label_count + 1)),
                        AsmLine.labelL (mkLabel st.m_label_count), AsmLine.movRax "0",
                        AsmLine.labelL (mkLabel (st.m_label_count + 1)),
                        AsmLine.pushRax])))) ++ rest) m
                      = execJ (sl_l ++ (AsmLine.popR Reg.rax :: AsmLine.cmpRaxZero ::
                        AsmLine.jeL (mkLabel st.m_label_count) :: (sl_r ++
                        (AsmLine.popR Reg.rax :: AsmLine.cmpRaxZero ::
                        AsmLine.jeL (mkLabel st.m_label_count) :: AsmLine.movRax "1" ::
                        AsmLine.jmpL (mkLabel (st.m_label_count + 1)) ::
                        AsmLine.labelL (mkLabel st.m_label_count) :: AsmLine.movRax "0" ::
                        AsmLine.labelL (mkLabel (st.m_label_count + 1)) ::
                        AsmLine.pushRax :: rest)))) m := by
                        simp [List.append_assoc]
                    _ = execJ (AsmLine.popR Reg.rax :: AsmLine.cmpRaxZero ::
                        AsmLine.jeL (mkLabel st.m_label_count) :: (sl_r ++
                        (AsmLine.popR Reg.rax :: AsmLine.cmpRaxZero ::
                        AsmLine.jeL (mkLabel st.m_label_count) :: AsmLine.movRax "1" ::
                        AsmLine.jmpL (mkLabel (st.m_label_count + 1)) ::
                        AsmLine.labelL (mkLabel st.m_label_count) :: AsmLine.movRax "0" ::
                        AsmLine.labelL (mkLabel (st.m_label_count + 1)) ::
                        AsmLine.pushRax :: rest))) m1 := he1
                    _ = execJ (sl_r ++ (AsmLine.popR Reg.rax :: AsmLine.cmpRaxZero ::
                        AsmLine.jeL (mkLabel st.m_label_count) :: AsmLine.movRax "1" ::
                        AsmLine.jmpL (mkLabel (st.m_label_count + 1)) ::
                        AsmLine.labelL (mkLabel st.m_label_count) :: AsmLine.movRax "0" ::
                        AsmLine.labelL (mkLabel (st.m_label_count + 1)) ::
                        AsmLine.pushRax :: rest))
                        { m1 with
                          rax := evalExprV l
                          zf := false
                          stack := m.stack } :=
                        execJ_checkJe_pos _ _ _ _ _ hs1 hvl
                    _ = execJ (AsmLine.popR Reg.rax :: AsmLine.cmpRaxZero ::
                        AsmLine.jeL (mkLabel st.m_label_count) :: AsmLine.movRax "1" ::
                        AsmLine.jmpL (mkLabel (st.m_label_count + 1)) ::
                        AsmLine.labelL (mkLabel st.m_label_count) :: AsmLine.movRax "0" ::
                        AsmLine.labelL (mkLabel (st.m_label_count + 1)) ::
                        AsmLine.pushRax :: rest) m3 := he3
                    _ = execJ (afterLabelL (mkLabel st.m_label_count)
                        (AsmLine.movRax "1" ::
                        AsmLine.jmpL (mkLabel (st.m_label_count + 1)) ::
                        AsmLine.labelL (mkLabel st.m_label_count) :: AsmLine.movRax "0" ::
                        AsmLine.labelL (mkLabel (st.m_label_count + 1)) ::
                        AsmLine.pushRax :: rest))
                        { m3 with
                          rax := evalExprV r
                          zf := true
                          stack := m.stack } :=
                        execJ_checkJe_zero _ _ _ _ _ hs3' hvr
                    _ = execJ (AsmLine.movRax "0" ::
                        AsmLine.labelL (mkLabel (st.m_label_count + 1)) ::
                        AsmLine.pushRax :: rest)
                        { m3 with
                          rax := evalExprV r
                          zf := true
                          stack := m.stack } := by
                        rw [show (AsmLine.movRax "1" ::
                          AsmLine.jmpL (mkLabel (st.m_label_count + 1)) ::
                          AsmLine.labelL (mkLabel st.m_label_count) :: AsmLine.movRax "0" ::
                          AsmLine.labelL (mkLabel (st.m_label_count + 1)) ::
                          AsmLine.pushRax :: rest : List AsmLine) = [AsmLine.movRax "1",
                          AsmLine.jmpL (mkLabel (st.m_label_count + 1))] ++
                          (AsmLine.labelL (mkLabel st.m_label_count) :: AsmLine.movRax "0" ::
                          AsmLine.labelL (mkLabel (st.m_label_count + 1)) ::
                          AsmLine.pushRax :: rest) from rfl]
                        rw [afterLabelL_skip _ _ _ (by intro l2 hm; simp at hm),
                          afterLabelL_here]
                    _ = execJ rest { m3 with rax := 0, zf := true, stack := 0 :: m.stack } :=
                        execJ_movPush_zero _ _ _
                · refine ⟨{ m3 with rax := 1, zf := false, stack := 1 :: m.stack }, ?_,
                    by simp [hvl, hvr]⟩
                  calc execJ ((sl_l ++ ([AsmLine.popR Reg.rax, AsmLine.cmpRaxZero,
                        AsmLine.jeL (mkLabel st.m_label_count)] ++ (sl_r ++
                        ([AsmLine.popR Reg.rax, AsmLine.cmpRaxZero,
                        AsmLine.jeL (mkLabel st.m_label_count)] ++
                        [AsmLine.movRax "1", AsmLine.jmpL (mkLabel (st.m_label_count + 1)),
                        AsmLine.labelL (mkLabel st.m_label_count), AsmLine.movRax "0",
                        AsmLine.labelL (mkLabel (st.m_label_count + 1)),
                        AsmLine.pushRax])))) ++ rest) m
                      = execJ (sl_l ++ (AsmLine.popR Reg.rax :: AsmLine.cmpRaxZero ::
                        AsmLine.jeL (mkLabel st.m_label_count) :: (sl_r ++
                        (AsmLine.popR Reg.rax :: AsmLine.cmpRaxZero ::
                        AsmLine.jeL (mkLabel st.m_label_count) :: AsmLine.movRax "1" ::
                        AsmLine.jmpL (mkLabel (st.m_label_count + 1)) ::
                        AsmLine.labelL (mkLabel st.m_label_count) :: AsmLine.movRax "0" ::
                        AsmLine.labelL (mkLabel (st.m_label_count + 1)) ::
                        AsmLine.pushRax :: rest)))) m := by
                        simp [List.append_assoc]
                    _ = execJ (AsmLine.popR Reg.rax :: AsmLine.cmpRaxZero ::
                        AsmLine.jeL (mkLabel st.m_label_count) :: (sl_r ++
                        (AsmLine.popR Reg.rax :: AsmLine.cmpRaxZero ::
                        AsmLine.jeL (mkLabel st.m_label_count) :: AsmLine.movRax "1" ::
                        AsmLine.jmpL (mkLabel (st.m_label_count + 1)) ::
                        AsmLine.labelL (mkLabel st.m_label_count) :: AsmLine.movRax "0" ::
                        AsmLine.labelL (mkLabel (st.m_label_count + 1)) ::
                        AsmLine.pushRax :: rest))) m1 := he1
                    _ = execJ (sl_r ++ (AsmLine.popR Reg.rax :: AsmLine.cmpRaxZero ::
                        AsmLine.jeL (mkLabel st.m_label_count) :: AsmLine.movRax "1" ::
                        AsmLine.jmpL (mkLabel (st.m_label_count + 1)) ::
                        AsmLine.labelL (mkLabel st.m_label_count) :: AsmLine.movRax "0" ::
                        AsmLine.labelL (mkLabel (st.m_label_count + 1)) ::
                        AsmLine.pushRax :: rest))
                        { m1 with
                          rax := evalExprV l
                          zf := false
                          stack := m.stack } :=
                        execJ_checkJe_pos _ _ _ _ _ hs1 hvl
                    _ = execJ (AsmLine.popR Reg.rax :: AsmLine.cmpRaxZero ::
                        AsmLine.jeL (mkLabel st.m_label_count) :: AsmLine.movRax "1" ::
                        AsmLine.jmpL (mkLabel (st.m_label_count + 1)) ::
                        AsmLine.labelL (mkLabel st.m_label_count) :: AsmLine.movRax "0" ::
                        AsmLine.labelL (mkLabel (st.m_label_count + 1)) ::
                        AsmLine.pushRax :: rest) m3 := he3
                    _ = execJ (AsmLine.movRax "1" ::
                        AsmLine.jmpL (mkLabel (st.m_label_count + 1)) ::
                        AsmLine.labelL (mkLabel st.m_label_count) :: AsmLine.movRax "0" ::
                        AsmLine.labelL (mkLabel (st.m_label_count + 1)) ::
                        AsmLine.pushRax :: rest)
                        { m3 with
                          rax := evalExprV r
                          zf := false
                          stack := m.stack } :=
                        execJ_checkJe_pos _ _ _ _ _ hs3' hvr
                    _ = execJ rest { m3 with rax := 1, zf := false, stack := 1 :: m.stack } :=
                        execJ_andTrueTail _ _ hneq _ _
      | orE l r =>
        simp only [valFragB, Bool.and_eq_true] at hnc
        simp only [genBinExpr] at h
        split at h
        · simp at h
        next s3 heq =>
          split at h
          · simp at h
          next s5 heq2 =>
            simp only [createLabel_fst, m_label_count_createLabel] at h heq2
            injection h with h2
            subst h2
            have hv : evalBinV (NodeBinExpr.orE l r) =
                (if evalExprV l = 0 then (if evalExprV r = 0 then 0 else 1) else 1) := by
              simp [evalBinV]
            rw [hv]
            obtain ⟨hle_l, sl_l, ho_l, hlab_l, hex_l⟩ := ihE l _ s3 hnc.1 heq
            obtain ⟨hle_r, sl_r, ho_r, hlab_r, hex_r⟩ := ihE r _ s5 hnc.2 heq2
            simp only [m_label_count_createLabel, m_output_createLabel] at hle_l ho_l hlab_l
            simp only [m_label_count_emitsG, m_label_count_popG, m_output_emitsG,
              m_output_popG] at hle_r ho_r hlab_r
            have hneq : mkLabel st.m_label_count ≠ mkLabel (st.m_label_count + 1) :=
              mkLabel_ne _ _ (by omega)
            unfold GoodSlice
            refine ⟨?_, sl_l ++ ([AsmLine.popR Reg.rax, AsmLine.cmpRaxZero,
              AsmLine.jneL (mkLabel st.m_label_count)] ++ (sl_r ++ ([AsmLine.popR Reg.rax,
              AsmLine.cmpRaxZero, AsmLine.jneL (mkLabel st.m_label_count)] ++
              [AsmLine.movRax "0", AsmLine.jmpL (mkLabel (st.m_label_count + 1)),
              AsmLine.labelL (mkLabel st.m_label_count), AsmLine.movRax "1",
              AsmLine.labelL (mkLabel (st.m_label_count + 1)), AsmLine.pushRax]))),
              ?_, ?_, ?_⟩
            · simp only [m_label_count_pushRaxG, m_label_count_emitsG, m_label_count_popG]
              omega
            · simp [m_output_pushRaxG, m_output_emitsG, m_output_popG, ho_r, ho_l,
                List.append_assoc]
            · intro lb hl
              simp only [m_label_count_pushRaxG, m_label_count_emitsG, m_label_count_popG]
              simp at hl
              rcases hl with hl | hl | hl | hl
              · obtain ⟨k, hk1, hk2, hk3⟩ := hlab_l lb hl
                exact ⟨k, by omega, by omega, hk3⟩
              · obtain ⟨k, hk1, hk2, hk3⟩ := hlab_r lb hl
                exact ⟨k, by omega, by omega, hk3⟩
              · exact ⟨st.m_label_count, by omega, by omega, hl⟩
              · exact ⟨st.m_label_count + 1, by omega, by omega, hl⟩
            · intro rest m
              obtain ⟨m1, he1, hs1⟩ := hex_l (AsmLine.popR Reg.rax :: AsmLine.cmpRaxZero ::
                AsmLine.jneL (mkLabel st.m_label_count) :: (sl_r ++ (AsmLine.popR Reg.rax ::
                AsmLine.cmpRaxZero :: AsmLine.jneL (mkLabel st.m_label_count) ::
                AsmLine.movRax "0" :: AsmLine.jmpL (mkLabel (st.m_label_count + 1)) ::
                AsmLine.labelL (mkLabel st.m_label_count) :: AsmLine.movRax "1" ::
                AsmLine.labelL (mkLabel (st.m_label_count + 1)) :: AsmLine.pushRax ::
                rest))) m
              have hfr : ∀ l2, AsmLine.labelL l2 ∈ sl_r ++ [AsmLine.popR Reg.rax,
                  AsmLine.cmpRaxZero, AsmLine.jneL (mkLabel st.m_label_count),
                  AsmLine.movRax "0", AsmLine.jmpL (mkLabel (st.m_label_count + 1))] →
                  l2 ≠ mkLabel st.m_label_count := by
                intro l2 hm
                rcases List.mem_append.1 hm with hm | hm
                · obtain ⟨k, hk1, hk2, hk3⟩ := hlab_r l2 hm
                  subst hk3
                  exact mkLabel_ne k st.m_label_count (by omega)
                · simp at hm
              have hres : afterLabelL (mkLabel st.m_label_count) (sl_r ++
                  (AsmLine.popR Reg.rax :: AsmLine.cmpRaxZero ::
                  AsmLine.jneL (mkLabel st.m_label_count) :: AsmLine.movRax "0" ::
                  AsmLine.jmpL (mkLabel (st.m_label_count + 1)) ::
                  AsmLine.labelL (mkLabel st.m_label_count) :: AsmLine.movRax "1" ::
                  AsmLine.labelL (mkLabel (st.m_label_count + 1)) :: AsmLine.pushRax ::
                  rest)) = AsmLine.movRax "1" ::
                  AsmLine.labelL (mkLabel (st.m_label_count + 1)) :: AsmLine.pushRax ::
                  rest := by
                rw [show (sl_r ++ (AsmLine.popR Reg.rax :: AsmLine.cmpRaxZero ::
                  AsmLine.jneL (mkLabel st.m_label_count) :: AsmLine.movRax "0" ::
                  AsmLine.jmpL (mkLabel (st.m_label_count + 1)) ::
                  AsmLine.labelL (mkLabel st.m_label_count) :: AsmLine.movRax "1" ::
                  AsmLine.labelL (mkLabel (st.m_label_count + 1)) :: AsmLine.pushRax ::
                  rest) : List AsmLine) = (sl_r ++ [AsmLine.popR Reg.rax,
                  AsmLine.cmpRaxZero, AsmLine.jneL (mkLabel st.m_label_count),
                  AsmLine.movRax "0", AsmLine.jmpL (mkLabel (st.m_label_count + 1))]) ++
                  (AsmLine.labelL (mkLabel st.m_label_count) :: AsmLine.movRax "1" ::
                  AsmLine.labelL (mkLabel (st.m_label_count + 1)) :: AsmLine.pushRax ::
                  rest) from by simp]
                rw [afterLabelL_skip _ _ _ hfr, afterLabelL_here]
              by_cases hvl : evalExprV l = 0
              · obtain ⟨m3, he3, hs3⟩ := hex_r (AsmLine.popR Reg.rax :: AsmLine.cmpRaxZero ::
                  AsmLine.jneL (mkLabel st.m_label_count) :: AsmLine.movRax "0" ::
                  AsmLine.jmpL (mkLabel (st.m_label_count + 1)) ::
                  AsmLine.labelL (mkLabel st.m_label_count) :: AsmLine.movRax "1" ::
                  AsmLine.labelL (mkLabel (st.m_label_count + 1)) :: AsmLine.pushRax ::
                  rest)
                  { m1 with
                    rax := evalExprV l
                    zf := true
                    stack := m.stack }
                have hs3' : m3.stack = evalExprV r :: m.stack := hs3
                by_cases hvr : evalExprV r = 0
                · refine ⟨{ m3 with rax := 0, zf := true, stack := 0 :: m.stack }, ?_,
                    by simp [hvl, hvr]⟩
                  calc execJ ((sl_l ++ ([AsmLine.popR Reg.rax, AsmLine.cmpRaxZero,
                        AsmLine.jneL (mkLabel st.m_label_count)] ++ (sl_r ++
                        ([AsmLine.popR Reg.rax, AsmLine.cmpRaxZero,
                        AsmLine.jneL (mkLabel st.m_label_count)] ++
                        [AsmLine.movRax "0", AsmLine.jmpL (mkLabel (st.m_label_count + 1)),
                        AsmLine.labelL (mkLabel st.m_label_count), AsmLine.movRax "1",
                        AsmLine.labelL (mkLabel (st.m_label_count + 1)),
                        AsmLine.pushRax])))) ++ rest) m
                      = execJ (sl_l ++ (AsmLine.popR Reg.rax :: AsmLine.cmpRaxZero ::
                        AsmLine.jneL (mkLabel st.m_label_count) :: (sl_r ++
                        (AsmLine.popR Reg.rax :: AsmLine.cmpRaxZero ::
                        AsmLine.jneL (mkLabel st.m_label_count) :: AsmLine.movRax "0" ::
                        AsmLine.jmpL (mkLabel (st.m_label_count + 1)) ::
                        AsmLine.labelL (mkLabel st.m_label_count) :: AsmLine.movRax "1" ::
                        AsmLine.labelL (mkLabel (st.m_label_count + 1)) ::
                        AsmLine.pushRax :: rest)))) m := by
                        simp [List.append_assoc]
                    _ = execJ (AsmLine.popR Reg.rax :: AsmLine.cmpRaxZero ::
                        AsmLine.jneL (mkLabel st.m_label_count) :: (sl_r ++
                        (AsmLine.popR Reg.rax :: AsmLine.cmpRaxZero ::
                        AsmLine.jneL (mkLabel st.m_label_count) :: AsmLine.movRax "0" ::
                        AsmLine.jmpL (mkLabel (st.m_label_count + 1)) ::
                        AsmLine.labelL (mkLabel st.m_label_count) :: AsmLine.movRax "1" ::
                        AsmLine.labelL (mkLabel (st.m_label_count + 1)) ::
                        AsmLine.pushRax :: rest))) m1 := he1
                    _ = execJ (sl_r ++ (AsmLine.popR Reg.rax :: AsmLine.cmpRaxZero ::
                        AsmLine.jneL (mkLabel st.m_label_count) :: AsmLine.movRax "0" ::
                        AsmLine.jmpL (mkLabel (st.m_label_count + 1)) ::
                        AsmLine.labelL (mkLabel st.m_label_count) :: AsmLine.movRax "1" ::
                        AsmLine.labelL (mkLabel (st.m_label_count + 1)) ::
                        AsmLine.pushRax :: rest))
                        { m1 with
                          rax := evalExprV l
                          zf := true
                          stack := m.stack } :=
                        execJ_checkJne_zero _ _ _ _ _ hs1 hvl
                    _ = execJ (AsmLine.popR Reg.rax :: AsmLine.cmpRaxZero ::
                        AsmLine.jneL (mkLabel st.m_label_count) :: AsmLine.movRax "0" ::
                        AsmLine.jmpL (mkLabel (st.m_label_count + 1)) ::
                        AsmLine.labelL (mkLabel st.m_label_count) :: AsmLine.movRax "1" ::
                        AsmLine.labelL (mkLabel (st.m_label_count + 1)) ::
                        AsmLine.pushRax :: rest) m3 := he3
                    _ = execJ (AsmLine.movRax "0" ::
                        AsmLine.jmpL (mkLabel (st.m_label_count + 1)) ::
                        AsmLine.labelL (mkLabel st.m_label_count) :: AsmLine.movRax "1" ::
                        AsmLine.labelL (mkLabel (st.m_label_count + 1)) ::
                        AsmLine.pushRax :: rest)
                        { m3 with
                          rax := evalExprV r
                          zf := true
                          stack := m.stack } :=
                        execJ_checkJne_zero _ _ _ _ _ hs3' hvr
                    _ = execJ rest { m3 with rax := 0, zf := true, stack := 0 :: m.stack } :=
                        execJ_orFalseTail _ _ hneq _ _
                · refine ⟨{ m3 with rax := 1, zf := false, stack := 1 :: m.stack }, ?_,
                    by simp [hvl, hvr]⟩
                  calc execJ ((sl_l ++ ([AsmLine.popR Reg.rax, AsmLine.cmpRaxZero,
                        AsmLine.jneL (mkLabel st.m_label_count)] ++ (sl_r ++
                        ([AsmLine.popR Reg.rax, AsmLine.cmpRaxZero,
                        AsmLine.jneL (mkLabel st.m_label_count)] ++
                        [AsmLine.movRax "0", AsmLine.jmpL (mkLabel (st.m_label_count + 1)),
                        AsmLine.labelL (mkLabel st.m_label_count), AsmLine.movRax "1",
                        AsmLine.labelL (mkLabel (st.m_label_count + 1)),
                        AsmLine.pushRax])))) ++ rest) m
                      = execJ (sl_l ++ (AsmLine.popR Reg.rax :: AsmLine.cmpRaxZero ::
                        AsmLine.jneL (mkLabel st.m_label_count) :: (sl_r ++
                        (AsmLine.popR Reg.rax :: AsmLine.cmpRaxZero ::
                        AsmLine.jneL (mkLabel st.m_label_count) :: AsmLine.movRax "0" ::
                        AsmLine.jmpL (mkLabel (st.m_label_count + 1)) ::
                        AsmLine.labelL (mkLabel st.m_label_count) :: AsmLine.movRax "1" ::
                        AsmLine.labelL (mkLabel (st.m_label_count + 1)) ::
                        AsmLine.pushRax :: rest)))) m := by
                        simp [List.append_assoc]
                    _ = execJ (AsmLine.popR Reg.rax :: AsmLine.cmpRaxZero ::
                        AsmLine.jneL (mkLabel st.m_label_count) :: (sl_r ++
                        (AsmLine.popR Reg.rax :: AsmLine.cmpRaxZero ::
                        AsmLine.jneL (mkLabel st.m_label_count) :: AsmLine.movRax "0" ::
                        AsmLine.jmpL (mkLabel (st.m_label_count + 1)) ::
                        AsmLine.labelL (mkLabel st.m_label_count) :: AsmLine.movRax "1" ::
                        AsmLine.labelL (mkLabel (st.m_label_count + 1)) ::
                        AsmLine.pushRax :: rest))) m1 := he1
                    _ = execJ (sl_r ++ (AsmLine.popR Reg.rax :: AsmLine.cmpRaxZero ::
                        AsmLine.jneL (mkLabel st.m_label_count) :: AsmLine.movRax "0" ::
                        AsmLine.jmpL (mkLabel (st.m_label_count + 1)) ::
                        AsmLine.labelL (mkLabel st.m_label_count) :: AsmLine.movRax "1" ::
                        AsmLine.labelL (mkLabel (st.m_label_count + 1)) ::
                        AsmLine.pushRax :: rest))
                        { m1 with
                          rax := evalExprV l
                          zf := true
                          stack := m.stack } :=
                        execJ_checkJne_zero _ _ _ _ _ hs1 hvl
                    _ = execJ (AsmLine.popR Reg.rax :: AsmLine.cmpRaxZero ::
                        AsmLine.jneL (mkLabel st.m_label_count) :: AsmLine.movRax "0" ::
                        AsmLine.jmpL (mkLabel (st.m_label_count + 1)) ::
                        AsmLine.labelL (mkLabel st.m_label_count) :: AsmLine.movRax "1" ::
                        AsmLine.labelL (mkLabel (st.m_label_count + 1)) ::
                        AsmLine.pushRax :: rest) m3 := he3
                    _ = execJ (afterLabelL (mkLabel st.m_label_count)
                        (AsmLine.movRax "0" ::
                        AsmLine.jmpL (mkLabel (st.m_label_count + 1)) ::
                        AsmLine.labelL (mkLabel st.m_label_count) :: AsmLine.movRax "1" ::
                        AsmLine.labelL (mkLabel (st.m_label_count + 1)) ::
                        AsmLine.pushRax :: rest))
                        { m3 with
                          rax := evalExprV r
                          zf := false
                          stack := m.stack } :=
                        execJ_checkJne_pos _ _ _ _ _ hs3' hvr
                    _ = execJ (AsmLine.movRax "1" ::
                        AsmLine.labelL (mkLabel (st.m_label_count + 1)) ::
                        AsmLine.pushRax :: rest)
                        { m3 with
                          rax := evalExprV r
                          zf := false
                          stack := m.stack } := by
                        rw [show (AsmLine.movRax "0" ::
                          AsmLine.jmpL (mkLabel (st.m_label_count + 1)) ::
                          AsmLine.labelL (mkLabel st.m_label_count) :: AsmLine.movRax "1" ::
                          AsmLine.labelL (mkLabel (st.m_label_count + 1)) ::
                          AsmLine.pushRax :: rest : List AsmLine) = [AsmLine.movRax "0",
                          AsmLine.jmpL (mkLabel (st.m_label_count + 1))] ++
                          (AsmLine.labelL (mkLabel st.m_label_count) :: AsmLine.movRax "1" ::
                          AsmLine.labelL (mkLabel (st.m_label_count + 1)) ::
                          AsmLine.pushRax :: rest) from rfl]
                        rw [afterLabelL_skip _ _ _ (by intro l2 hm; simp at hm),
                          afterLabelL_here]
                    _ = execJ rest { m3 with rax := 1, zf := false, stack := 1 :: m.stack } :=
                        execJ_movPush_one _ _ _
              · refine ⟨{ m1 with rax := 1, zf := false, stack := 1 :: m.stack }, ?_,
                  by simp [hvl]⟩
                calc execJ ((sl_l ++ ([AsmLine.popR Reg.rax, AsmLine.cmpRaxZero,
                      AsmLine.jneL (mkLabel st.m_label_count)] ++ (sl_r ++
                      ([AsmLine.popR Reg.rax, AsmLine.cmpRaxZero,
                      AsmLine.jneL (mkLabel st.m_label_count)] ++
                      [AsmLine.movRax "0", AsmLine.jmpL (mkLabel (st.m_label_count + 1)),
                      AsmLine.labelL (mkLabel st.m_label_count), AsmLine.movRax "1",
                      AsmLine.labelL (mkLabel (st.m_label_count + 1)),
                      AsmLine.pushRax])))) ++ rest) m
                    = execJ (sl_l ++ (AsmLine.popR Reg.rax :: AsmLine.cmpRaxZero ::
                      AsmLine.jneL (mkLabel st.m_label_count) :: (sl_r ++
                      (AsmLine.popR Reg.rax :: AsmLine.cmpRaxZero ::
                      AsmLine.jneL (mkLabel st.m_label_count) :: AsmLine.movRax "0" ::
                      AsmLine.jmpL (mkLabel (st.m_label_count + 1)) ::
                      AsmLine.labelL (mkLabel st.m_label_count) :: AsmLine.movRax "1" ::
                      AsmLine.labelL (mkLabel (st.m_label_count + 1)) ::
                      AsmLine.pushRax :: rest)))) m := by
                      simp [List.append_assoc]
                  _ = execJ (AsmLine.popR Reg.rax :: AsmLine.cmpRaxZero ::
                      AsmLine.jneL (mkLabel st.m_label_count) :: (sl_r ++
                      (AsmLine.popR Reg.rax :: AsmLine.cmpRaxZero ::
                      AsmLine.jneL (mkLabel st.m_label_count) :: AsmLine.movRax "0" ::
                      AsmLine.jmpL (mkLabel (st.m_label_count + 1)) ::
                      AsmLine.labelL (mkLabel st.m_label_count) :: AsmLine.movRax "1" ::
                      AsmLine.labelL (mkLabel (st.m_label_count + 1)) ::
                      AsmLine.pushRax :: rest))) m1 := he1
                  _ = execJ (afterLabelL (mkLabel st.m_label_count) (sl_r ++
                      (AsmLine.popR Reg.rax :: AsmLine.cmpRaxZero ::
                      AsmLine.jneL (mkLabel st.m_label_count) :: AsmLine.movRax "0" ::
                      AsmLine.jmpL (mkLabel (st.m_label_count + 1)) ::
                      AsmLine.labelL (mkLabel st.m_label_count) :: AsmLine.movRax "1" ::
                      AsmLine.labelL (mkLabel (st.m_label_count + 1)) ::
                      AsmLine.pushRax :: rest)))
                      { m1 with
                        rax := evalExprV l
                        zf := false
                        stack := m.stack } :=
                      execJ_checkJne_pos _ _ _ _ _ hs1 hvl
                  _ = execJ (AsmLine.movRax "1" ::
                      AsmLine.labelL (mkLabel (st.m_label_count + 1)) :: AsmLine.pushRax ::
                      rest)
                      { m1 with
                        rax := evalExprV l
                        zf := false
                        stack := m.stack } := by rw [hres]
                  _ = execJ rest { m1 with rax := 1, zf := false, stack := 1 :: m.stack } :=
                      execJ_movPush_one _ _ _

/-! ## The claims -/

/-- Claim C1 (code_bug). The claim says `tokenize` succeeds on every
source whose string literals are properly terminated, and fails with the
unterminated-string diagnostic only at end of input inside a literal.
The code disagrees: the check at tokenization.hpp lines 197-201 runs
*after* the closing quote has been consumed (the loop breaks at line
187-189 having consumed it), so it inspects the character *after* the
literal and reports "unclosed string literal" unless that character is
another quote. The first two conjuncts evaluate the lexer at properly
terminated literals (`"hi";` and `"hi" `), which die with the
unclosed-string diagnostic exactly like the genuinely unterminated
`"hi` of the third conjunct. -/
theorem C1_terminated_string_literal_fatal :
    tokenize "\"hi\";" = Except.error TokError.unclosedString ∧
    tokenize "\"hi\" " = Except.error TokError.unclosedString ∧
    tokenize "\"hi" = Except.error TokError.unclosedString :=
  ⟨rfl, rfl, rfl⟩

/-- Claim C2, counterexample. The claim says the lexeme `print` produces
the print keyword token, not an identifier; the `TokenType` enumeration
has no print member and the keyword dispatch has no print branch, so
`print` lexes as an identifier. -/
theorem C2_print_is_identifier_cex :
    tokenize "print" = Except.ok [{ type := TokenType.ident, value := some "print" }] :=
  rfl

/-- Claim C2 as amended: the keyword set is `{exit, let, if, else,
while, for, function, return, true, false}` — without `print` — and any
other lexeme (including `print`) becomes an identifier carrying the
lexeme. The first conjunct covers every non-keyword buffer (the dead
`"else if"` branch of the dispatch included in the excluded set); the
rest evaluate the dispatch at each keyword and run the whole lexer over
a source containing all keywords, `print`, and an alphanumeric lexeme
`for1` (maximal munch: not the keyword `for`). -/
theorem C2_keyword_dispatch :
    (∀ w : String,
      w ∉ ["true", "false", "exit", "let", "if", "else", "else if", "while", "for",
        "function", "return"] →
      classifyWord w = { type := TokenType.ident, value := some w }) ∧
    classifyWord "exit" = { type := TokenType.exit } ∧
    classifyWord "let" = { type := TokenType.let_ } ∧
    classifyWord "if" = { type := TokenType.if_ } ∧
    classifyWord "else" = { type := TokenType.else_ } ∧
    classifyWord "while" = { type := TokenType.while_ } ∧
    classifyWord "for" = { type := TokenType.for_ } ∧
    classifyWord "function" = { type := TokenType.function } ∧
    classifyWord "return" = { type := TokenType.return_ } ∧
    classifyWord "true" = { type := TokenType.true_ } ∧
    classifyWord "false" = { type := TokenType.false_ } ∧
    tokenize "exit let if else while for function return true false print for1" =
      Except.ok [{ type := TokenType.exit }, { type := TokenType.let_ },
        { type := TokenType.if_ }, { type := TokenType.else_ }, { type := TokenType.while_ },
        { type := TokenType.for_ }, { type := TokenType.function }, { type := TokenType.return_ },
        { type := TokenType.true_ }, { type := TokenType.false_ },
        { type := TokenType.ident, value := some "print" },
        { type := TokenType.ident, value := some "for1" }] := by
  refine ⟨?_, rfl, rfl, rfl, rfl, rfl, rfl, rfl, rfl, rfl, rfl, rfl⟩
  intro w hw
  simp only [List.mem_cons, List.mem_singleton, not_or] at hw
  obtain ⟨h1, h2, h3, h4, h5, h6, h7, h8, h9, h10, h11⟩ := hw
  simp [classifyWord, h1, h2, h3, h4, h5, h6, h7, h8, h9, h10, h11]

/-- Claim C2 witness: the amended statement applied to the concrete
lexeme `print`. -/
theorem C2_keyword_dispatch_witness :
    "print" ∉ ["true", "false", "exit", "let", "if", "else", "else if", "while", "for",
      "function", "return"] ∧
    classifyWord "print" = { type := TokenType.ident, value := some "print" } :=
  ⟨by decide, C2_keyword_dispatch.1 "print" (by decide)⟩

/-- Claim C3 (confirmed). `* /` bind tighter than `+ -` and equal
precedences associate to the left via the `prec + 1` recursion: the spec
scenario `let x = 2 + 3 * 4; exit(x);` lexes, parses with `x` bound to
`2 + (3 * 4)` (the AST `letExitProg`), and the compiled program exits
with status 14 (second and third conjuncts); `10 - 4 - 3` parses as
`(10 - 4) - 3` and `2 * 3 + 4` as `(2 * 3) + 4` (last two conjuncts). -/
theorem C3_precedence_and_exit14 :
    tokenize srcPrecedence = Except.ok letExitToks ∧
    parse_prog letExitToks = Except.ok letExitProg ∧
    compileRun srcPrecedence = some 14 ∧
    parseExpr 40 0 [{ type := TokenType.int_lit, value := some "10" },
      { type := TokenType.minus }, { type := TokenType.int_lit, value := some "4" },
      { type := TokenType.minus }, { type := TokenType.int_lit, value := some "3" }] 0 =
      Except.ok (some (NodeExpr.binE (NodeBinExpr.subE
        (NodeExpr.binE (NodeBinExpr.subE
          (NodeExpr.term (NodeTerm.intLitT { type := TokenType.int_lit, value := some "10" }))
          (NodeExpr.term (NodeTerm.intLitT { type := TokenType.int_lit, value := some "4" }))))
        (NodeExpr.term (NodeTerm.intLitT { type := TokenType.int_lit, value := some "3" })))), 5) ∧
    parseExpr 40 0 [{ type := TokenType.int_lit, value := some "2" },
      { type := TokenType.star }, { type := TokenType.int_lit, value := some "3" },
      { type := TokenType.plus }, { type := TokenType.int_lit, value := some "4" }] 0 =
      Except.ok (some (NodeExpr.binE (NodeBinExpr.addE
        (NodeExpr.binE (NodeBinExpr.multiE
          (NodeExpr.term (NodeTerm.intLitT { type := TokenType.int_lit, value := some "2" }))
          (NodeExpr.term (NodeTerm.intLitT { type := TokenType.int_lit, value := some "3" }))))
        (NodeExpr.term (NodeTerm.intLitT { type := TokenType.int_lit, value := some "4" })))), 5) :=
  ⟨rfl, rfl, rfl, rfl, rfl⟩

/-- Claim C4 (confirmed). The precedence-climbing loop folds an operator
only when `bin_prec` defines a precedence for it; `bin_prec` is `none`
on `==`, `&&` and `||`, so when one of them follows the parsed term,
`parse_expr` returns that term alone with the position still in front of
the operator. -/
theorem C4_parse_expr_stops_before_unranked_ops
    (f : Nat) (minPrec : Int) (toks : List Token) (i j : Nat) (t : NodeTerm) (op : Token)
    (hnc : funcCallAhead toks i = false)
    (hterm : parseTerm (f + 1) toks i = Except.ok (some t, j))
    (hop : toks.get? j = some op)
    (hkind : op.type = TokenType.eq_eq ∨ op.type = TokenType.and_and ∨
      op.type = TokenType.or_or) :
    parseExpr (f + 2) minPrec toks i = Except.ok (some (NodeExpr.term t), j) := by
  have hbp : bin_prec op.type = none := by
    rcases hkind with h | h | h <;> rw [h] <;> rfl
  have hop2 : toks[j]? = some op := by
    rw [← List.get?_eq_getElem?]
    exact hop
  simp [parseExpr, parseExprLoop, hnc, hterm, hop2, hbp]

/-- Claim C4 witness: on `1 == 2`, `parse_expr` returns the bare term
`1` with the position in front of the `==`. -/
theorem C4_parse_expr_stops_before_unranked_ops_witness :
    funcCallAhead [{ type := TokenType.int_lit, value := some "1" },
      { type := TokenType.eq_eq }, { type := TokenType.int_lit, value := some "2" }] 0 = false ∧
    parseExpr 12 0 [{ type := TokenType.int_lit, value := some "1" },
      { type := TokenType.eq_eq }, { type := TokenType.int_lit, value := some "2" }] 0 =
      Except.ok (some (NodeExpr.term
        (NodeTerm.intLitT { type := TokenType.int_lit, value := some "1" })), 1) :=
  ⟨rfl, C4_parse_expr_stops_before_unranked_ops 10 0
    [{ type := TokenType.int_lit, value := some "1" }, { type := TokenType.eq_eq },
      { type := TokenType.int_lit, value := some "2" }] 0 1
    (NodeTerm.intLitT { type := TokenType.int_lit, value := some "1" })
    { type := TokenType.eq_eq } rfl rfl rfl (Or.inl rfl)⟩

/-- Claim C5, counterexample. `gen_expr` on a function-call expression
does not increase the stack model: `gen_func_call` (generation.hpp lines
54-65) lowers the arguments, emits the `call` and the argument cleanup,
and pushes no result slot — for a zero-argument call the stack model
stays at 0 where the claim requires 1. -/
theorem C5_func_call_stack_cex :
    genExpr 5 (NodeExpr.funcCallE
      (NodeFuncCall.mk { type := TokenType.ident, value := some "f" } [])) {} =
      Except.ok { m_output := [AsmLine.callL "f"] } ∧
    ({ m_output := [AsmLine.callL "f"] } : GenState).m_stack_size = 0 :=
  ⟨rfl, rfl⟩

/-- Claim C5 as amended. First conjunct: for every expression free of
function calls (terms that the generator's visitor handles — integer and
boolean literals, identifiers, parentheses — and the seven binary
forms), `gen_expr` increases `m_stack_size` by exactly one, at every
fuel value that lets it return. Second conjunct: when the expression
moreover lies in the value-computing fragment (`valFragE`: literals,
parentheses and `+ - * == && ||` — no identifiers, division or calls),
the emitted instruction slice really computes the expression's 64-bit
value (`evalExprV`) into the newly pushed top-of-stack slot: run ahead
of any continuation from any machine state, it reaches the continuation
with exactly that value pushed and the rest of the stack untouched.
Function-call expressions are the exception the counterexample
exhibits. -/
theorem C5_gen_expr_stack_and_value (f : Nat) (e : NodeExpr) (s s2 : GenState)
    (hnc : noCallE e = true) (h : genExpr f e s = Except.ok s2) :
    s2.m_stack_size = s.m_stack_size + 1 ∧
    (valFragE e = true →
      ∃ sl, s2.m_output = s.m_output ++ sl ∧
        ∀ rest m, ∃ m2, execJ (sl ++ rest) m = execJ rest m2 ∧
          m2.stack = evalExprV e :: m.stack) := by
  refine ⟨(genStackAux f).1 e s s2 hnc h, fun hvf => ?_⟩
  obtain ⟨-, sl, ho, -, hex⟩ := (genValueAux f).1 e s s2 hvf h
  exact ⟨sl, ho, hex⟩

/-- Claim C5 witness: lowering the literal 3 from the initial state
raises the stack model from 0 to 1, and the emitted slice
`mov rax, 3; push rax` pushes the value 3 onto the machine stack ahead
of any continuation. -/
theorem C5_gen_expr_stack_and_value_witness :
    noCallE c5WitnessExpr = true ∧
    (c5WitnessState.m_stack_size = ({} : GenState).m_stack_size + 1 ∧
      (valFragE c5WitnessExpr = true →
        ∃ sl, c5WitnessState.m_output = ({} : GenState).m_output ++ sl ∧
          ∀ rest m, ∃ m2, execJ (sl ++ rest) m = execJ rest m2 ∧
            m2.stack = evalExprV c5WitnessExpr :: m.stack)) :=
  ⟨rfl, C5_gen_expr_stack_and_value 5 c5WitnessExpr {} c5WitnessState rfl rfl⟩

/-- Claim C6 (code_bug). The generator lowers `lhs / rhs` as
`gen(rhs); gen(lhs); pop rax; pop rbx; div rbx; push rax` with no
instruction zeroing `rdx` before the `div` (conjuncts 1, 3 and 4: the
emitted stream for `exit(5000000000 * 5000000000 / 1);` has `div rbx`
directly after `pop rbx`, and nothing in it writes `rdx`). The claim
(and the spec) requires `rdx` to be zeroed; because the preceding
`mul rbx` left the product's high 64 bits in `rdx`, the division's
128-bit quotient overflows and the program dies with a divide fault
instead of exiting (conjunct 2). -/
theorem C6_div_lowering_no_rdx_zeroing :
    compileStr srcDivNoZeroRdx = some { text := divProgAsm, data := [] } ∧
    execAsm divProgAsm {} = none ∧
    divProgAsm.get? 11 = some (AsmLine.popR Reg.rbx) ∧
    divProgAsm.get? 12 = some AsmLine.divRbx :=
  ⟨rfl, rfl, rfl, rfl⟩

/-- Claim C7 (confirmed, with `expect` modelled from the spec). Every
diagnosed syntactic violation of the parser is fatal. The only site that
prints a diagnostic and does not terminate — the exit branch, where
`(EXIT_FAILURE);` lacks its `exit` call (parser.hpp line 520) — is
unreachable: it is guarded by `parse_expr` returning an empty optional,
and the first conjunct shows `parse_expr` never does (at any fuel,
position and precedence). The second conjunct runs the parser on
`exit(;);`: the invalid expression inside `exit(...)` terminates the
parse fatally (inside `parse_term`, via `expect`), and parsing does not
proceed with the statement. -/
theorem C7_parser_errors_are_fatal :
    (∀ fuel minPrec toks i, returnsEmpty (parseExpr fuel minPrec toks i) = false) ∧
    parse_prog [{ type := TokenType.exit }, { type := TokenType.open_paren },
      { type := TokenType.semi }, { type := TokenType.close_paren },
      { type := TokenType.semi }] =
      Except.error (PErr.fatal "Expected 'function' keyword") :=
  ⟨fun fuel => (parseNeverEmpty fuel).1, rfl⟩

/-- Claim C8, counterexample. `gen_stmt` on a bare boolean-literal
statement is not a no-op: it emits `mov rax, 1; push rax` and raises the
stack model to 1, where the claim requires the output and the stack
model unchanged. -/
theorem C8_bool_literal_stmt_emits_push_cex :
    genStmt 5 (NodeStmt.boolLitS true) {} =
      Except.ok { m_output := [AsmLine.movRax "1", AsmLine.pushRax], m_stack_size := 1 } :=
  rfl

/-- Claim C8 as amended: the parser does accept a bare string or boolean
literal as a statement (first three conjuncts), but the code generator
is not a no-op on them: a boolean literal emits `mov rax, 0/1; push rax`
and a string literal appends a null-terminated entry to the `.data`
section and emits `lea rax, [label]; push rax` — each pushing one
stack slot. -/
theorem C8_literal_stmts_parse_and_push :
    parseStmt 9 [{ type := TokenType.true_ }] 0 =
      Except.ok (some (NodeStmt.boolLitS true), 1) ∧
    parseStmt 9 [{ type := TokenType.false_ }] 0 =
      Except.ok (some (NodeStmt.boolLitS false), 1) ∧
    parseStmt 9 [{ type := TokenType.string_lit, value := some "hi" }] 0 =
      Except.ok (some (NodeStmt.stringLitS "hi"), 1) ∧
    genStmt 9 (NodeStmt.boolLitS false) {} =
      Except.ok { m_output := [AsmLine.movRax "0", AsmLine.pushRax], m_stack_size := 1 } ∧
    genStmt 9 (NodeStmt.stringLitS "hi") {} =
      Except.ok
        { m_output := [AsmLine.leaRaxLabel "str_lit_0", AsmLine.pushRax]
          m_data_section := [("str_lit_0", "hi")]
          m_stack_size := 1
          string_label_count := 1 } :=
  ⟨rfl, rfl, rfl, rfl, rfl⟩

/-- Claim C9, counterexample. The claim says an allocation whose bump
past `sizeof(T)` would exceed the capacity fails fatally; `alloc`
(arena.hpp lines 46-51) performs no capacity comparison at all: from a
4-byte arena an 8-byte allocation returns the slot at offset 0 (which
extends past the buffer) and advances the bump offset to 8, beyond the
capacity, without failing. -/
theorem C9_alloc_no_capacity_check_cex :
    ArenaAllocator.alloc 8 { m_size := 4, m_offset := 0 } =
      (0, { m_size := 4, m_offset := 8 }) ∧ 4 < 0 + 8 :=
  ⟨rfl, by norm_num⟩

/-- Claim C9 as amended: `alloc` is an unconditional bump — even when the
request exceeds the remaining capacity it returns the current offset and
advances past `m_size`, handing out storage outside the buffer rather
than failing. -/
theorem C9_alloc_unchecked_bump (size off n : Nat) (h : size < off + n) :
    ArenaAllocator.alloc n { m_size := size, m_offset := off } =
      (off, { m_size := size, m_offset := off + n }) ∧
    size < (ArenaAllocator.alloc n { m_size := size, m_offset := off }).2.m_offset :=
  ⟨rfl, h⟩

/-- Claim C9 witness: the amended statement at the concrete 4-byte arena
and 8-byte request. -/
theorem C9_alloc_unchecked_bump_witness :
    4 < 0 + 8 ∧
    (ArenaAllocator.alloc 8 { m_size := 4, m_offset := 0 } =
      (0, { m_size := 4, m_offset := 8 }) ∧
     4 < (ArenaAllocator.alloc 8 { m_size := 4, m_offset := 0 }).2.m_offset) :=
  ⟨by norm_num, C9_alloc_unchecked_bump 4 0 8 (by norm_num)⟩

/-- Claim C10 (code_bug). The claim says every lookahead `peek(k)` is
dereferenced in bounds, so a source ending in a lone `=`, `&` or `|`, or
a block comment reaching `*` as the last character, takes a normal
fatal-error path. In the code the `==`, `&&` and `||` checks
(tokenization.hpp lines 144, 152, 207) and the block-comment close scan
(line 133) call `peek(1).value()` with no `has_value` guard: on these
four inputs the lexer dies through `std::bad_optional_access`, not
through a diagnostic (first four conjuncts). The last conjunct shows
the normal fatal path (`Syntax error`) for contrast. -/
theorem C10_unguarded_lookahead_throws :
    tokenize "=" = Except.error TokError.badOptionalAccess ∧
    tokenize "&" = Except.error TokError.badOptionalAccess ∧
    tokenize "|" = Except.error TokError.badOptionalAccess ∧
    tokenize "/*a*" = Except.error TokError.badOptionalAccess ∧
    tokenize "@" = Except.error TokError.syntaxError :=
  ⟨rfl, rfl, rfl, rfl, rfl⟩
